import Mathlib

/-!
# pretender: DNS reply construction (`dns.go`)

A shallow embedding of `createDNSReplyFromRequest` and the helpers it calls,
together with the properties stated about them.

Conventions of the embedding:

* Go strings are `String`; the functions of package `strings` are written over
  the list of code points (`String.data`), which is what Go does on valid UTF-8.
* `net.IP` is a byte slice that may be `nil`: `Option (List Nat)`, `none` = `nil`.
* `*Logger` is a write-only collaborator: every call appends one `LogEvent` to a
  trace that is threaded through the code.
* The functions of this package that `dns.go` calls but does not define
  (`shouldRespondToNameResolutionQuery`, `decodeNetBIOSHostname`,
  `decodeNetBIOSSuffix`, `encodeNetBIOSLocator`) and the library printer
  `dns.Type.String` are fields of `Env`; every theorem holds for all of them
  unless it fixes one in a hypothesis.
* The handlers are functions from what their collaborators answer
  (`rw.WriteMsg`, `reply.Pack`, `conn.WriteTo`) to the calls they make on the
  responder or the connection and on the logger; the transport runners are
  functions of the value their blocking serve call returns.
-/

namespace Pretender

/-! ## Package `strings` / `unicode` -/

/-- Go `unicode.IsSpace`: the Latin-1 spaces and the `White_Space` property. -/
def isSpace (c : Char) : Bool :=
  let n := c.toNat
  (9 ≤ n && n ≤ 13) || n == 0x20 || n == 0x85 || n == 0xA0 || n == 0x1680 ||
    (0x2000 ≤ n && n ≤ 0x200A) || n == 0x2028 || n == 0x2029 || n == 0x202F ||
    n == 0x205F || n == 0x3000

/-- Go `strings.TrimSpace`: drop leading and trailing white space. -/
def TrimSpace (s : String) : String :=
  ⟨((s.data.dropWhile isSpace).reverse.dropWhile isSpace).reverse⟩

/-- Go `strings.HasSuffix`. -/
def HasSuffix (s suffix : String) : Bool :=
  suffix.data.isSuffixOf s.data

/-- Go `strings.TrimSuffix`: remove the suffix once if it is there. -/
def TrimSuffix (s suffix : String) : String :=
  if HasSuffix s suffix then ⟨s.data.take (s.data.length - suffix.data.length)⟩ else s

/-! ## `time.Duration.Seconds` and the conversion to `uint32`

`uint32(config.TTL.Seconds())` goes through `float64`. Finite non-negative
doubles are kept as exact fractions `num / den`; rounding is to nearest, ties
to even, with a 53-bit significand. The values that occur lie between `2^-30`
and `2^34`, well inside the normal exponent range. -/

/-- A non-negative rational `num / den`. -/
structure Frac where
  num : Nat
  den : Nat
deriving DecidableEq

/-- Exact sum of two fractions. -/
def Frac.add (a b : Frac) : Frac :=
  ⟨a.num * b.den + b.num * a.den, a.den * b.den⟩

/-- Exact quotient of a fraction by a positive integer. -/
def Frac.divNat (a : Frac) (k : Nat) : Frac :=
  ⟨a.num, a.den * k⟩

/-- Integer part of a fraction. -/
def Frac.floor (a : Frac) : Nat :=
  a.num / a.den

def bitLenAux : Nat → Nat → Nat
  | 0, _ => 0
  | fuel + 1, n => if n = 0 then 0 else bitLenAux fuel (n / 2) + 1

/-- Number of binary digits of `n` (`0` for `0`). -/
def bitLen (n : Nat) : Nat :=
  bitLenAux n n

/-- The integer nearest to `p / q`, ties to the even one. -/
def roundHalfEven (p q : Nat) : Nat :=
  let n := p / q
  let r := p % q
  if 2 * r < q then n
  else if q < 2 * r then n + 1
  else if n % 2 = 0 then n else n + 1

/-- Rounding of an exact non-negative value to `float64`: the significand is
scaled to 53 bits, rounded to nearest-even and scaled back. -/
def roundFloat64 (x : Frac) : Frac :=
  if x.num = 0 ∨ x.den = 0 then ⟨0, 1⟩
  else if x.den ≤ x.num then
    let b := bitLen (x.num / x.den)
    if b ≤ 53 then
      ⟨roundHalfEven (x.num * 2 ^ (53 - b)) x.den, 2 ^ (53 - b)⟩
    else
      ⟨roundHalfEven x.num (x.den * 2 ^ (b - 53)) * 2 ^ (b - 53), 1⟩
  else
    let k := bitLen ((x.den - 1) / x.num)
    ⟨roundHalfEven (x.num * 2 ^ (52 + k)) x.den, 2 ^ (52 + k)⟩

/-- A finite `float64`: sign and magnitude. -/
structure Float64 where
  neg : Bool
  mag : Frac
deriving DecidableEq

/-- Go `time.Second`, in nanoseconds. -/
def Second : Nat := 1000000000

/-- Go `Duration.Seconds`:
`sec := d / Second; nsec := d % Second; float64(sec) + float64(nsec)/1e9`.
Go's `/` and `%` truncate, so both parts carry the sign of `d`, and rounding
to nearest-even is symmetric: the magnitude is computed on `|d|`. -/
def Duration.Seconds (d : Int) : Float64 :=
  let sec := d.natAbs / Second
  let nsec := d.natAbs % Second
  let fsec := roundFloat64 ⟨sec, 1⟩
  let fnsec := roundFloat64 ⟨nsec, 1⟩
  ⟨decide (d < 0), roundFloat64 (fsec.add (roundFloat64 (fnsec.divNat Second)))⟩

/-- Go conversion `uint32(f)`: the fraction is discarded. Values outside
`[0, 2^32)` are implementation-dependent in Go; here they wrap modulo `2^32`,
which is what the 64-bit targets compute (conversion to `int64`, then
truncation to 32 bits). -/
def uint32OfFloat64 (f : Float64) : Nat :=
  if f.neg then (2 ^ 32 - f.mag.floor % 2 ^ 32) % 2 ^ 32 else f.mag.floor % 2 ^ 32

/-! ## Data model -/

/-- Go `net.IP`: a byte slice, `none` for `nil`. -/
abbrev IP := Option (List Nat)

/-- Go `net.IP.To4`. -/
def IP.To4 : IP → IP
  | none => none
  | some bs =>
    if bs.length = 4 then some bs
    else if bs.length = 16 ∧ (bs.take 10).all (· == 0) ∧ bs.get? 10 = some 0xff ∧
        bs.get? 11 = some 0xff then
      some (bs.drop 12)
    else none

/-- Go `net.Addr` as far as `toIP` distinguishes it: the two address types it
accepts, and any other value with the name `%T` prints for it. -/
inductive Addr where
  | TCPAddr (ip : IP) (port : Nat) (zone : String)
  | UDPAddr (ip : IP) (port : Nat) (zone : String)
  | other (typeName : String)
deriving DecidableEq

/-- The part of `dns.ResponseWriter` that reply construction reads: the two
addresses, and what their `String()` methods print. -/
structure ResponseWriter where
  RemoteAddr : Addr
  LocalAddr : Addr
  RemoteAddrString : String
  LocalAddrString : String
deriving DecidableEq

/-- The fields of `Config` that `dns.go` reads. -/
structure Config where
  RelayIPv4 : IP
  RelayIPv6 : IP
  TTL : Int
  LocalIPv6 : IP
  InterfaceName : String
deriving DecidableEq

/-- Go `dns.Question`. -/
structure Question where
  Name : String
  Qtype : Nat
  Qclass : Nat
deriving DecidableEq

/-- Go `dns.RR_Header`. -/
structure RR_Header where
  Name : String
  Rrtype : Nat
  Class : Nat
  Ttl : Nat
  Rdlength : Nat := 0
deriving DecidableEq

/-- The resource records that reply construction creates. -/
inductive RR where
  | A (Hdr : RR_Header) (A : IP)
  | AAAA (Hdr : RR_Header) (AAAA : IP)
  | NIMLOC (Hdr : RR_Header) (Locator : String)
deriving DecidableEq

/-- Go `dns.Msg`: the header bits and the four sections. -/
structure Msg where
  Id : Nat := 0
  Response : Bool := false
  Opcode : Int := 0
  Authoritative : Bool := false
  Truncated : Bool := false
  RecursionDesired : Bool := false
  RecursionAvailable : Bool := false
  Zero : Bool := false
  AuthenticatedData : Bool := false
  CheckingDisabled : Bool := false
  Rcode : Int := 0
  Compress : Bool := false
  Question : List Question := []
  Answer : List RR := []
  Ns : List RR := []
  Extra : List RR := []
deriving DecidableEq

/-- One call on `*Logger`. -/
inductive LogEvent where
  | Errorf (msg : String)
  | Infof (msg : String)
  | Debugf (format : String) (args : List String)
  | IgnoreDNS (name : String) (queryType : String) (peer : IP)
  | Query (name : String) (queryType : String) (peer : IP)
deriving DecidableEq

def TypeA : Nat := 1
def TypeAAAA : Nat := 28
def TypeNIMLOC : Nat := 32
def TypeANY : Nat := 255
def ClassINET : Nat := 1
def OpcodeQuery : Int := 0
def RcodeSuccess : Int := 0

/-- NetBIOS name resolution messages have type 32 (`dns.TypeNIMLOC`). -/
def typeNetBios : Nat := TypeNIMLOC

/-- What `dns.go` uses and does not define. -/
structure Env where
  shouldRespondToNameResolutionQuery : Config → String → IP → Bool
  decodeNetBIOSHostname : String → String
  decodeNetBIOSSuffix : String → String
  encodeNetBIOSLocator : IP → String
  typeString : Nat → String

/-! ## `dns.go` -/

/-- Go `dns.Msg.SetReply` (miekg/dns): copy id and opcode, set the response
bit, copy the RD and CD bits of a standard query, and echo the first question. -/
def SetReply (m request : Msg) : Msg :=
  let m1 := { m with Id := request.Id, Response := true, Opcode := request.Opcode }
  let m2 :=
    if m1.Opcode = OpcodeQuery then
      { m1 with RecursionDesired := request.RecursionDesired,
                CheckingDisabled := request.CheckingDisabled }
    else m1
  let m3 := { m2 with Rcode := RcodeSuccess }
  match request.Question with
  | [] => m3
  | q :: _ => { m3 with Question := [q] }

/-- Source: `toIP`. -/
def toIP (addr : Addr) : Except String IP :=
  match addr with
  | Addr.TCPAddr ip _ _ => Except.ok ip
  | Addr.UDPAddr ip _ _ => Except.ok ip
  | Addr.other typeName => Except.error ("cannot extract IP from " ++ typeName)

/-- Source: `normalizedName`. -/
def normalizedName (host : String) : String :=
  TrimSuffix (TrimSpace host) "."

/-- Source: `normalizedNameFromQuery`. -/
def normalizedNameFromQuery (env : Env) (q : Question) : String :=
  if q.Qtype = typeNetBios then env.decodeNetBIOSHostname q.Name
  else
    let name := normalizedName q.Name
    if name = "" then q.Name else name

/-- Source: `dnsQueryType`. -/
def dnsQueryType (env : Env) (qtype : Nat) : String :=
  env.typeString qtype

/-- Source: `queryType`. -/
def queryType (env : Env) (q : Question) : String :=
  if q.Qtype = typeNetBios then env.decodeNetBIOSSuffix q.Name
  else dnsQueryType env q.Qtype

/-- The expression `uint32(config.TTL.Seconds())`. -/
def ttlSeconds (config : Config) : Nat :=
  uint32OfFloat64 (Duration.Seconds config.TTL)

/-- The loop state of `createDNSReplyFromRequest`: the reply under
construction and the logger trace so far. -/
abbrev LoopState := Msg × List LogEvent

/-- One iteration of the `for _, q := range request.Question` loop of
`createDNSReplyFromRequest`. A branch that ends in `continue` returns without
the `logger.Query` call that closes the loop body. -/
def handleQuestion (env : Env) (rw : ResponseWriter) (config : Config) (peer : IP)
    (st : LoopState) (q : Question) : LoopState :=
  let reply := st.1
  let log := st.2
  let name := normalizedNameFromQuery env q
  if env.shouldRespondToNameResolutionQuery config name peer = false then
    (reply, log ++ [LogEvent.IgnoreDNS name (queryType env q) peer])
  else if q.Qtype = TypeA then
    if config.RelayIPv4 = none then
      (reply, log ++
        [LogEvent.Infof "ignored AAAA request because no IPv6 relay gateway is configured"])
    else
      ({ reply with Answer := reply.Answer ++
          [RR.A { Name := q.Name, Rrtype := TypeA, Class := ClassINET,
                  Ttl := ttlSeconds config } config.RelayIPv4] },
        log ++ [LogEvent.Query name (queryType env q) peer])
  else if q.Qtype = TypeAAAA then
    if config.RelayIPv6 = none then
      (reply, log ++
        [LogEvent.Infof "ignored AAAA request because no IPv6 relay gateway is configured"])
    else
      ({ reply with Answer := reply.Answer ++
          [RR.AAAA { Name := q.Name, Rrtype := TypeAAAA, Class := ClassINET,
                     Ttl := ttlSeconds config } config.RelayIPv6] },
        log ++ [LogEvent.Query name (queryType env q) peer])
  else if q.Qtype = TypeANY then
    let reply1 :=
      if config.RelayIPv4 ≠ none then
        { reply with Answer := reply.Answer ++
            [RR.A { Name := q.Name, Rrtype := TypeA, Class := ClassINET,
                    Ttl := ttlSeconds config } config.RelayIPv4] }
      else reply
    let reply2 :=
      if config.RelayIPv6 ≠ none then
        { reply1 with Answer := reply1.Answer ++
            [RR.AAAA { Name := q.Name, Rrtype := TypeAAAA, Class := ClassINET,
                       Ttl := ttlSeconds config } config.RelayIPv6] }
      else reply1
    (reply2, log ++ [LogEvent.Query name (queryType env q) peer])
  else if q.Qtype = typeNetBios then
    ({ reply with
        CheckingDisabled := false,
        Question := [],
        Answer := reply.Answer ++
          [RR.NIMLOC { Name := q.Name, Rrtype := TypeNIMLOC, Class := ClassINET,
                       Ttl := ttlSeconds config }
            (env.encodeNetBIOSLocator config.RelayIPv4.To4)] },
      log ++ [LogEvent.Query name (queryType env q) peer])
  else
    (reply, log ++
      [LogEvent.Debugf "%s query for name %s from %s on interface %s is unhandled"
        [env.typeString q.Qtype, name, rw.RemoteAddrString, rw.LocalAddrString]])

/-- The whole `for` loop: the questions are handled left to right. -/
def processQuestions (env : Env) (rw : ResponseWriter) (config : Config) (peer : IP)
    (st : LoopState) (qs : List Question) : LoopState :=
  qs.foldl (handleQuestion env rw config peer) st

/-- Source: `createDNSReplyFromRequest`. The result is the returned `*dns.Msg`
(`none` for `nil`) and the calls made on the logger. -/
def createDNSReplyFromRequest (env : Env) (rw : ResponseWriter) (request : Msg)
    (config : Config) : Option Msg × List LogEvent :=
  let reply := SetReply {} request
  match toIP rw.RemoteAddr with
  | Except.error err => (none, [LogEvent.Errorf err])
  | Except.ok peer =>
    let st := processQuestions env rw config peer (reply, []) request.Question
    if st.1.Answer.length = 0 then (none, st.2) else (some st.1, st.2)

/-! ## Per-question view of the loop

What one iteration adds to `reply.Answer`, read off the `switch` of
`createDNSReplyFromRequest` branch by branch. -/

/-- The admission test of the loop body for one question. -/
def admitted (env : Env) (config : Config) (peer : IP) (q : Question) : Bool :=
  env.shouldRespondToNameResolutionQuery config (normalizedNameFromQuery env q) peer

/-- The records the `switch` appends for an admitted question. -/
def switchRecords (env : Env) (config : Config) (q : Question) : List RR :=
  if q.Qtype = TypeA then
    if config.RelayIPv4 = none then []
    else [RR.A { Name := q.Name, Rrtype := TypeA, Class := ClassINET,
                 Ttl := ttlSeconds config } config.RelayIPv4]
  else if q.Qtype = TypeAAAA then
    if config.RelayIPv6 = none then []
    else [RR.AAAA { Name := q.Name, Rrtype := TypeAAAA, Class := ClassINET,
                    Ttl := ttlSeconds config } config.RelayIPv6]
  else if q.Qtype = TypeANY then
    (if config.RelayIPv4 ≠ none then
      [RR.A { Name := q.Name, Rrtype := TypeA, Class := ClassINET,
              Ttl := ttlSeconds config } config.RelayIPv4]
     else []) ++
    (if config.RelayIPv6 ≠ none then
      [RR.AAAA { Name := q.Name, Rrtype := TypeAAAA, Class := ClassINET,
                 Ttl := ttlSeconds config } config.RelayIPv6]
     else [])
  else if q.Qtype = typeNetBios then
    [RR.NIMLOC { Name := q.Name, Rrtype := TypeNIMLOC, Class := ClassINET,
                 Ttl := ttlSeconds config }
      (env.encodeNetBIOSLocator config.RelayIPv4.To4)]
  else []

/-- The records one question contributes: nothing when the policy rejects it. -/
def questionRecords (env : Env) (config : Config) (peer : IP) (q : Question) : List RR :=
  if admitted env config peer q then switchRecords env config q else []

/-- The answer list accumulated over a whole request: empty when the peer
address cannot be extracted (the loop is not entered), otherwise the answer
list of the loop state after the last question. -/
def accumulatedAnswers (env : Env) (rw : ResponseWriter) (request : Msg)
    (config : Config) : List RR :=
  match toIP rw.RemoteAddr with
  | Except.error _ => []
  | Except.ok peer =>
    (processQuestions env rw config peer (SetReply {} request, []) request.Question).1.Answer

/-! ## Scenario environment

The theorems below hold for every `Env`. The concrete scenarios need one: its
NetBIOS helpers follow the codec of the specification, its policy is a
parameter. -/

/-- Modelled from the spec: the value of one first-level-encoded character of
the NetBIOS name codec, `'A' + n` for the nibble `n`. -/
def decodeNibble (c : Char) : Option Nat :=
  if 65 ≤ c.toNat ∧ c.toNat ≤ 80 then some (c.toNat - 65) else none

/-- Modelled from the spec: the NetBIOS name codec reassembles each pair of
encoded characters into one byte. -/
def decodePairs : List Char → Option (List Nat)
  | [] => some []
  | [_] => none
  | hi :: lo :: rest =>
    match decodeNibble hi, decodeNibble lo, decodePairs rest with
    | some h, some l, some bs => some ((h * 16 + l) :: bs)
    | _, _, _ => none

/-- Modelled from the spec: `Decode` of the NetBIOS name codec, which `dns.go`
calls and does not define. A label of exactly 32 characters in `A`..`P` decodes
to 16 bytes; the first 15 are the hostname with the trailing spaces trimmed, the
16th is the suffix; any other label is malformed. -/
def specDecode (label : String) : Option (String × Nat) :=
  if label.data.length ≠ 32 then none
  else
    match decodePairs label.data with
    | none => none
    | some bytes =>
      some (⟨(((bytes.take 15).map Char.ofNat).reverse.dropWhile (· == ' ')).reverse⟩,
        bytes.getD 15 0)

/-- Hexadecimal digit of a value below 16. -/
def hexDigit (n : Nat) : Char :=
  if n < 10 then Char.ofNat (48 + n) else Char.ofNat (87 + n)

/-- Two lower-case hexadecimal digits of a byte. -/
def hexByte (b : Nat) : List Char :=
  [hexDigit (b / 16 % 16), hexDigit (b % 16)]

def natDigitsAux : Nat → Nat → List Char → List Char
  | 0, _, acc => acc
  | fuel + 1, n, acc =>
    if n < 10 then Char.ofNat (48 + n) :: acc
    else natDigitsAux fuel (n / 10) (Char.ofNat (48 + n % 10) :: acc)

/-- Decimal digits of a number (Go `strconv.Itoa` on a non-negative value). -/
def natDigits (n : Nat) : String :=
  ⟨natDigitsAux (n + 1) n []⟩

/-- Go `dns.TypeToString` (miekg/dns): the mnemonics of the record types the
library defines; its later releases add the newest types. -/
def typeMnemonics : List (Nat × String) :=
  [(0, "None"), (1, "A"), (2, "NS"), (3, "MD"), (4, "MF"), (5, "CNAME"), (6, "SOA"),
   (7, "MB"), (8, "MG"), (9, "MR"), (10, "NULL"), (12, "PTR"), (13, "HINFO"), (14, "MINFO"),
   (15, "MX"), (16, "TXT"), (17, "RP"), (18, "AFSDB"), (19, "X25"), (20, "ISDN"),
   (21, "RT"), (23, "NSAP-PTR"), (24, "SIG"), (25, "KEY"), (26, "PX"), (27, "GPOS"),
   (28, "AAAA"), (29, "LOC"), (30, "NXT"), (31, "EID"), (32, "NIMLOC"), (33, "SRV"),
   (34, "ATMA"), (35, "NAPTR"), (36, "KX"), (37, "CERT"), (39, "DNAME"), (41, "OPT"),
   (42, "APL"), (43, "DS"), (44, "SSHFP"), (45, "IPSECKEY"), (46, "RRSIG"), (47, "NSEC"),
   (48, "DNSKEY"), (49, "DHCID"), (50, "NSEC3"), (51, "NSEC3PARAM"), (52, "TLSA"),
   (53, "SMIMEA"), (55, "HIP"), (56, "NINFO"), (57, "RKEY"), (58, "TALINK"), (59, "CDS"),
   (60, "CDNSKEY"), (61, "OPENPGPKEY"), (62, "CSYNC"), (63, "ZONEMD"), (64, "SVCB"),
   (65, "HTTPS"), (99, "SPF"), (100, "UINFO"), (101, "UID"), (102, "GID"), (103, "UNSPEC"),
   (104, "NID"), (105, "L32"), (106, "L64"), (107, "LP"), (108, "EUI48"), (109, "EUI64"),
   (249, "TKEY"), (250, "TSIG"), (251, "IXFR"), (252, "AXFR"), (253, "MAILB"),
   (254, "MAILA"), (255, "ANY"), (256, "URI"), (257, "CAA"), (258, "AVC"),
   (260, "AMTRELAY"), (32768, "TA"), (32769, "DLV"), (65535, "Reserved")]

/-- Go `dns.Type.String`: the mnemonic of the type, and `TYPE` followed by its
number for a type without one. -/
def scenarioTypeString (t : Nat) : String :=
  match typeMnemonics.lookup t with
  | some mnemonic => mnemonic
  | none => "TYPE" ++ natDigits t

/-- Modelled from the spec: the helpers of the NetBIOS codec as the scenarios
use them. The hostname is the one `Decode` yields; the suffix label is
`DecodeSuffixLabel` with its two documented entries and the hexadecimal
fallback. For a malformed label the specification names an error and not a
string, and it leaves the locator layout open: the scenarios take the label
itself and the hexadecimal digits of the address bytes. -/
def scenarioEnv (policy : Config → String → IP → Bool) : Env where
  shouldRespondToNameResolutionQuery := policy
  decodeNetBIOSHostname := fun label =>
    match specDecode label with
    | some r => r.1
    | none => label
  decodeNetBIOSSuffix := fun label =>
    match specDecode label with
    | some r =>
      if r.2 = 0x00 then "Workstation" else if r.2 = 0x20 then "File Server"
      else ⟨'0' :: 'x' :: hexByte r.2⟩
    | none => label
  encodeNetBIOSLocator := fun ip =>
    match ip with
    | none => ""
    | some bs => ⟨bs.flatMap hexByte⟩
  typeString := scenarioTypeString

/-- The always-allow policy. -/
def allowAll : Config → String → IP → Bool :=
  fun _ _ _ => true

/-- A policy that admits exactly one name. -/
def allowOnly (name : String) : Config → String → IP → Bool :=
  fun _ n _ => n == name

/-- Scenario responder: a UDP peer at 192.0.2.5, port 5353. -/
def scenarioWriter : ResponseWriter where
  RemoteAddr := Addr.UDPAddr (some [192, 0, 2, 5]) 5353 ""
  LocalAddr := Addr.UDPAddr (some [10, 0, 2, 2]) 53 ""
  RemoteAddrString := "192.0.2.5:5353"
  LocalAddrString := "10.0.2.2:53"

/-- Scenario configuration: the relay addresses given, TTL of 60 s. -/
def scenarioConfig (v4 v6 : IP) : Config where
  RelayIPv4 := v4
  RelayIPv6 := v6
  TTL := 60000000000
  LocalIPv6 := some [0xfe, 0x80, 0, 0, 0, 0, 0, 0, 0, 0, 0, 0, 0, 0, 0, 1]
  InterfaceName := "eth0"

/-- Relay address 10.0.2.2. -/
def relay4 : IP := some [10, 0, 2, 2]

/-- Relay address fe80::2. -/
def relay6 : IP := some [0xfe, 0x80, 0, 0, 0, 0, 0, 0, 0, 0, 0, 0, 0, 0, 0, 2]

/-- A standard query with the given questions. -/
def queryOf (qs : List Question) : Msg :=
  { Id := 4242, RecursionDesired := true, Question := qs }

/-- The logger calls one iteration of the loop makes for a question: the trace
`handleQuestion` leaves when started on an empty one. -/
def questionEvents (env : Env) (rw : ResponseWriter) (config : Config) (peer : IP)
    (q : Question) : List LogEvent :=
  (handleQuestion env rw config peer ({}, []) q).2

/-- Scenario question: an `A` query for a name the `allowOnly` policy rejects. -/
def rejectedQuestion : Question :=
  { Name := "other.internal.", Qtype := TypeA, Qclass := ClassINET }

/-- Scenario question: an `A` query for `gateway.internal.`. -/
def gatewayQuestion : Question :=
  { Name := "gateway.internal.", Qtype := TypeA, Qclass := ClassINET }

/-- Scenario peer, 192.0.2.5. -/
def scenarioPeer : IP := some [192, 0, 2, 5]

/-- Scenario question: an `ANY` query for `gateway.internal.`. -/
def anyQuestion : Question :=
  { Name := "gateway.internal.", Qtype := TypeANY, Qclass := ClassINET }

/-- Scenario question: the NetBIOS query for the first-level encoding of the
name `HOST`, padded to 15 bytes, with suffix `0x20` (file server). -/
def netBIOSQuestion : Question :=
  { Name := "EIEPFDFECACACACACACACACACACACACA", Qtype := typeNetBios, Qclass := ClassINET }

/-- In the words of the specification: the name with a single trailing label
separator stripped. -/
def stripTrailingDot (t : List Char) : List Char :=
  if t.getLast? = some '.' then t.dropLast else t

/-- The fraction lies in `[s, s + 1 - 2^-30]`. -/
def Frac.within (s : Nat) (x : Frac) : Prop :=
  0 < x.den ∧ s * x.den ≤ x.num ∧ x.num * 2 ^ 30 + x.den ≤ (s + 1) * 2 ^ 30 * x.den

/-! ## Handlers and transport runners -/

/-- A Go `error` value: a plain one with its message, or one built by
`fmt.Errorf` with `%w`, which prints the text before the verb followed by the
wrapped error and unwraps to it. -/
inductive GoError where
  | plain (msg : String)
  | wrapped (text : String) (inner : GoError)
deriving DecidableEq

/-- Go `err.Error()`. -/
def GoError.Error : GoError → String
  | GoError.plain msg => msg
  | GoError.wrapped text inner => text ++ inner.Error

/-- Go `errors.Unwrap(err)`. -/
def GoError.Unwrap : GoError → Option GoError
  | GoError.plain _ => none
  | GoError.wrapped _ inner => some inner

/-- A state-changing call on the `dns.ResponseWriter`. -/
inductive ResponderCall where
  | Close
  | WriteMsg (m : Msg)
deriving DecidableEq

/-- A call on the `net.PacketConn`. -/
inductive ConnCall where
  | WriteTo (buf : List Nat) (addr : Addr)
deriving DecidableEq

/-- Source: the handler `DNSHandler` returns. `writeMsg` is what
`rw.WriteMsg` answers for a message (`none` for a `nil` error); the error of
`rw.Close` is discarded by the code. The result is the calls made on the
responder and the calls made on the logger; a formatted logger call is kept as
the message it prints. -/
def DNSHandler (env : Env) (config : Config) (writeMsg : Msg → Option GoError)
    (rw : ResponseWriter) (request : Msg) : List ResponderCall × List LogEvent :=
  let res := createDNSReplyFromRequest env rw request config
  match res.1 with
  | none => ([ResponderCall.Close], res.2)
  | some reply =>
    match writeMsg reply with
    | some err =>
      ([ResponderCall.WriteMsg reply],
        res.2 ++ [LogEvent.Errorf ("writing response: " ++ err.Error)])
    | none => ([ResponderCall.WriteMsg reply], res.2)

/-- Source: the handler `UDPConnDNSHandler` returns. `pack` is `reply.Pack()`
of the DNS library, `writeTo` is what `conn.WriteTo` answers (`none` for a `nil`
error). The result is the calls made on the connection and on the logger. -/
def UDPConnDNSHandler (env : Env) (config : Config)
    (pack : Msg → Except GoError (List Nat))
    (writeTo : List Nat → Addr → Option GoError)
    (rw : ResponseWriter) (request : Msg) : List ConnCall × List LogEvent :=
  let res := createDNSReplyFromRequest env rw request config
  match res.1 with
  | none => ([], res.2)
  | some reply =>
    match pack reply with
    | Except.error err =>
      ([], res.2 ++ [LogEvent.Errorf ("pack message: " ++ err.Error)])
    | Except.ok buf =>
      match writeTo buf rw.RemoteAddr with
      | some err =>
        ([ConnCall.WriteTo buf rw.RemoteAddr],
          res.2 ++ [LogEvent.Errorf ("write dns response: " ++ err.Error)])
      | none => ([ConnCall.WriteTo buf rw.RemoteAddr], res.2)

/-- Source: `runDNSServerWithContext`, as a function of what the blocking call
`server.ListenAndServe()` returns (`none` for `nil`). The goroutine started
before it only calls `server.Shutdown()`; it reaches this function's result
through the value the serve call returns. -/
def runDNSServerWithContext (listenAndServe : Option GoError) : Option GoError :=
  match listenAndServe with
  | some err => some (GoError.wrapped "activate and serve: " err)
  | none => none

/-- Source: `RunDNSHandlerOnUDPConnection`, as a function of what the blocking
call `server.ActivateAndServe()` returns (`none` for `nil`). -/
def RunDNSHandlerOnUDPConnection (activateAndServe : Option GoError) : Option GoError :=
  match activateAndServe with
  | some err => some (GoError.wrapped "activate and serve: " err)
  | none => none

/-- In the words of the claim: a valid first-level encoding has exactly 32
characters, each in `A`..`P`. -/
def validFirstLevelEncoding (name : String) : Bool :=
  name.data.length == 32 && name.data.all (fun c => 65 ≤ c.toNat && c.toNat ≤ 80)

/-- Scenario question: a NetBIOS query (type 32) whose name is not a
first-level encoding. -/
def malformedNetBIOSQuestion : Question :=
  { Name := "not-encoded.", Qtype := typeNetBios, Qclass := ClassINET }

/-- Scenario question: a `TXT` query (type 16). -/
def txtQuestion : Question :=
  { Name := "gateway.internal.", Qtype := 16, Qclass := ClassINET }

/-- Scenario responder whose remote address is neither TCP nor UDP. -/
def unixWriter : ResponseWriter where
  RemoteAddr := Addr.other "*net.UnixAddr"
  LocalAddr := Addr.UDPAddr (some [10, 0, 2, 2]) 53 ""
  RemoteAddrString := "/run/dns.sock"
  LocalAddrString := "10.0.2.2:53"

/-- Scenario configuration with a TTL of 16777216.999999999 s. -/
def longTTLConfig : Config where
  RelayIPv4 := relay4
  RelayIPv6 := none
  TTL := 16777216999999999
  LocalIPv6 := some [0xfe, 0x80, 0, 0, 0, 0, 0, 0, 0, 0, 0, 0, 0, 0, 0, 1]
  InterfaceName := "eth0"

/-- The header of a resource record. -/
def RR.Hdr : RR → RR_Header
  | RR.A h _ => h
  | RR.AAAA h _ => h
  | RR.NIMLOC h _ => h

/-- Scenario configuration with both relay addresses and the given TTL in
nanoseconds. -/
def ttlConfig (ttl : Int) : Config where
  RelayIPv4 := relay4
  RelayIPv6 := relay6
  TTL := ttl
  LocalIPv6 := some [0xfe, 0x80, 0, 0, 0, 0, 0, 0, 0, 0, 0, 0, 0, 0, 0, 1]
  InterfaceName := "eth0"

/-! ## The loop, branch by branch -/

theorem SetReply_answer (m request : Msg) : (SetReply m request).Answer = m.Answer := by
  unfold SetReply
  cases request.Question <;> simp only [] <;> split <;> rfl

theorem handleQuestion_rejected (env : Env) (rw : ResponseWriter) (config : Config) (peer : IP)
    (st : LoopState) (q : Question)
    (h : env.shouldRespondToNameResolutionQuery config (normalizedNameFromQuery env q) peer
      = false) :
    handleQuestion env rw config peer st q =
      (st.1, st.2 ++
        [LogEvent.IgnoreDNS (normalizedNameFromQuery env q) (queryType env q) peer]) := by
  unfold handleQuestion
  simp only [h, if_true]

theorem handleQuestion_A_unset (env : Env) (rw : ResponseWriter) (config : Config) (peer : IP)
    (st : LoopState) (q : Question)
    (h : env.shouldRespondToNameResolutionQuery config (normalizedNameFromQuery env q) peer
      = true)
    (hq : q.Qtype = TypeA) (h4 : config.RelayIPv4 = none) :
    handleQuestion env rw config peer st q =
      (st.1, st.2 ++
        [LogEvent.Infof "ignored AAAA request because no IPv6 relay gateway is configured"]) := by
  unfold handleQuestion
  simp [h, hq, h4]

theorem handleQuestion_A (env : Env) (rw : ResponseWriter) (config : Config) (peer : IP)
    (st : LoopState) (q : Question)
    (h : env.shouldRespondToNameResolutionQuery config (normalizedNameFromQuery env q) peer
      = true)
    (hq : q.Qtype = TypeA) (h4 : config.RelayIPv4 ≠ none) :
    handleQuestion env rw config peer st q =
      ({ st.1 with Answer := st.1.Answer ++
          [RR.A { Name := q.Name, Rrtype := TypeA, Class := ClassINET,
                  Ttl := ttlSeconds config } config.RelayIPv4] },
        st.2 ++ [LogEvent.Query (normalizedNameFromQuery env q) (queryType env q) peer]) := by
  unfold handleQuestion
  simp [h, hq, h4]

theorem handleQuestion_AAAA_unset (env : Env) (rw : ResponseWriter) (config : Config)
    (peer : IP) (st : LoopState) (q : Question)
    (h : env.shouldRespondToNameResolutionQuery config (normalizedNameFromQuery env q) peer
      = true)
    (hq : q.Qtype = TypeAAAA) (h6 : config.RelayIPv6 = none) :
    handleQuestion env rw config peer st q =
      (st.1, st.2 ++
        [LogEvent.Infof "ignored AAAA request because no IPv6 relay gateway is configured"]) := by
  unfold handleQuestion
  simp [h, hq, h6, TypeA, TypeAAAA]

theorem handleQuestion_AAAA (env : Env) (rw : ResponseWriter) (config : Config) (peer : IP)
    (st : LoopState) (q : Question)
    (h : env.shouldRespondToNameResolutionQuery config (normalizedNameFromQuery env q) peer
      = true)
    (hq : q.Qtype = TypeAAAA) (h6 : config.RelayIPv6 ≠ none) :
    handleQuestion env rw config peer st q =
      ({ st.1 with Answer := st.1.Answer ++
          [RR.AAAA { Name := q.Name, Rrtype := TypeAAAA, Class := ClassINET,
                     Ttl := ttlSeconds config } config.RelayIPv6] },
        st.2 ++ [LogEvent.Query (normalizedNameFromQuery env q) (queryType env q) peer]) := by
  unfold handleQuestion
  simp [h, hq, h6, TypeA, TypeAAAA]

theorem handleQuestion_ANY (env : Env) (rw : ResponseWriter) (config : Config) (peer : IP)
    (st : LoopState) (q : Question)
    (h : env.shouldRespondToNameResolutionQuery config (normalizedNameFromQuery env q) peer
      = true)
    (hq : q.Qtype = TypeANY) :
    handleQuestion env rw config peer st q =
      ({ st.1 with Answer := st.1.Answer ++
          ((if config.RelayIPv4 ≠ none then
              [RR.A { Name := q.Name, Rrtype := TypeA, Class := ClassINET,
                      Ttl := ttlSeconds config } config.RelayIPv4]
            else []) ++
           (if config.RelayIPv6 ≠ none then
              [RR.AAAA { Name := q.Name, Rrtype := TypeAAAA, Class := ClassINET,
                         Ttl := ttlSeconds config } config.RelayIPv6]
            else [])) },
        st.2 ++ [LogEvent.Query (normalizedNameFromQuery env q) (queryType env q) peer]) := by
  unfold handleQuestion
  by_cases h4 : config.RelayIPv4 = none <;> by_cases h6 : config.RelayIPv6 = none <;>
    simp [h, hq, h4, h6, TypeA, TypeAAAA, TypeANY]

theorem handleQuestion_NetBIOS (env : Env) (rw : ResponseWriter) (config : Config) (peer : IP)
    (st : LoopState) (q : Question)
    (h : env.shouldRespondToNameResolutionQuery config (normalizedNameFromQuery env q) peer
      = true)
    (hq : q.Qtype = typeNetBios) :
    handleQuestion env rw config peer st q =
      ({ st.1 with
          CheckingDisabled := false,
          Question := [],
          Answer := st.1.Answer ++
            [RR.NIMLOC { Name := q.Name, Rrtype := TypeNIMLOC, Class := ClassINET,
                         Ttl := ttlSeconds config }
              (env.encodeNetBIOSLocator config.RelayIPv4.To4)] },
        st.2 ++ [LogEvent.Query (normalizedNameFromQuery env q) (queryType env q) peer]) := by
  unfold handleQuestion
  simp [h, hq, TypeA, TypeAAAA, TypeANY, typeNetBios, TypeNIMLOC]

theorem handleQuestion_unhandled (env : Env) (rw : ResponseWriter) (config : Config)
    (peer : IP) (st : LoopState) (q : Question)
    (h : env.shouldRespondToNameResolutionQuery config (normalizedNameFromQuery env q) peer
      = true)
    (hA : q.Qtype ≠ TypeA) (hAAAA : q.Qtype ≠ TypeAAAA) (hANY : q.Qtype ≠ TypeANY)
    (hNB : q.Qtype ≠ typeNetBios) :
    handleQuestion env rw config peer st q =
      (st.1, st.2 ++
        [LogEvent.Debugf "%s query for name %s from %s on interface %s is unhandled"
          [env.typeString q.Qtype, normalizedNameFromQuery env q, rw.RemoteAddrString,
            rw.LocalAddrString]]) := by
  unfold handleQuestion
  simp [h, hA, hAAAA, hANY, hNB]

theorem handleQuestion_answer (env : Env) (rw : ResponseWriter) (config : Config) (peer : IP)
    (st : LoopState) (q : Question) :
    (handleQuestion env rw config peer st q).1.Answer =
      st.1.Answer ++ questionRecords env config peer q := by
  unfold questionRecords admitted
  cases hp : env.shouldRespondToNameResolutionQuery config (normalizedNameFromQuery env q) peer
  · rw [handleQuestion_rejected env rw config peer st q hp]; simp
  · by_cases hA : q.Qtype = TypeA
    · by_cases h4 : config.RelayIPv4 = none
      · rw [handleQuestion_A_unset env rw config peer st q hp hA h4]
        simp [switchRecords, hA, h4]
      · rw [handleQuestion_A env rw config peer st q hp hA h4]
        simp [switchRecords, hA, h4]
    · by_cases hAAAA : q.Qtype = TypeAAAA
      · by_cases h6 : config.RelayIPv6 = none
        · rw [handleQuestion_AAAA_unset env rw config peer st q hp hAAAA h6]
          simp [switchRecords, hAAAA, h6, TypeA, TypeAAAA]
        · rw [handleQuestion_AAAA env rw config peer st q hp hAAAA h6]
          simp [switchRecords, hAAAA, h6, TypeA, TypeAAAA]
      · by_cases hANY : q.Qtype = TypeANY
        · rw [handleQuestion_ANY env rw config peer st q hp hANY]
          simp [switchRecords, hANY, TypeA, TypeAAAA, TypeANY]
        · by_cases hNB : q.Qtype = typeNetBios
          · rw [handleQuestion_NetBIOS env rw config peer st q hp hNB]
            simp [switchRecords, hNB, TypeA, TypeAAAA, TypeANY, typeNetBios, TypeNIMLOC]
          · rw [handleQuestion_unhandled env rw config peer st q hp hA hAAAA hANY hNB]
            simp [switchRecords, hA, hAAAA, hANY, hNB]

theorem processQuestions_nil (env : Env) (rw : ResponseWriter) (config : Config) (peer : IP)
    (st : LoopState) : processQuestions env rw config peer st [] = st := rfl

theorem processQuestions_cons (env : Env) (rw : ResponseWriter) (config : Config) (peer : IP)
    (st : LoopState) (q : Question) (qs : List Question) :
    processQuestions env rw config peer st (q :: qs) =
      processQuestions env rw config peer (handleQuestion env rw config peer st q) qs := rfl

theorem processQuestions_append (env : Env) (rw : ResponseWriter) (config : Config) (peer : IP)
    (st : LoopState) (qs₁ qs₂ : List Question) :
    processQuestions env rw config peer st (qs₁ ++ qs₂) =
      processQuestions env rw config peer (processQuestions env rw config peer st qs₁) qs₂ := by
  unfold processQuestions
  exact List.foldl_append _ _ _ _

theorem processQuestions_answer (env : Env) (rw : ResponseWriter) (config : Config) (peer : IP)
    (qs : List Question) (st : LoopState) :
    (processQuestions env rw config peer st qs).1.Answer =
      st.1.Answer ++ qs.flatMap (questionRecords env config peer) := by
  induction qs generalizing st with
  | nil => simp [processQuestions_nil]
  | cons q qs ih =>
    rw [processQuestions_cons, ih, handleQuestion_answer]
    simp [List.flatMap_cons, List.append_assoc]

theorem accumulatedAnswers_ok (env : Env) (rw : ResponseWriter) (request : Msg)
    (config : Config) (peer : IP) (h : toIP rw.RemoteAddr = Except.ok peer) :
    accumulatedAnswers env rw request config =
      request.Question.flatMap (questionRecords env config peer) := by
  unfold accumulatedAnswers
  rw [h]
  simp only []
  rw [processQuestions_answer, SetReply_answer]
  rfl

theorem createDNSReplyFromRequest_fst (env : Env) (rw : ResponseWriter) (request : Msg)
    (config : Config) (peer : IP) (h : toIP rw.RemoteAddr = Except.ok peer) :
    (createDNSReplyFromRequest env rw request config).1 =
      if (processQuestions env rw config peer (SetReply {} request, [])
            request.Question).1.Answer = [] then none
      else some (processQuestions env rw config peer (SetReply {} request, [])
            request.Question).1 := by
  unfold createDNSReplyFromRequest
  rw [h]
  simp only [List.length_eq_zero]
  split <;> rfl

theorem handleQuestion_log (env : Env) (rw : ResponseWriter) (config : Config) (peer : IP)
    (st : LoopState) (q : Question) :
    (handleQuestion env rw config peer st q).2 =
      st.2 ++ questionEvents env rw config peer q := by
  unfold questionEvents
  cases hp : env.shouldRespondToNameResolutionQuery config (normalizedNameFromQuery env q) peer
  · simp [handleQuestion_rejected _ _ _ _ _ _ hp]
  · by_cases hA : q.Qtype = TypeA
    · by_cases h4 : config.RelayIPv4 = none
      · simp [handleQuestion_A_unset _ _ _ _ _ _ hp hA h4]
      · simp [handleQuestion_A _ _ _ _ _ _ hp hA h4]
    · by_cases hAAAA : q.Qtype = TypeAAAA
      · by_cases h6 : config.RelayIPv6 = none
        · simp [handleQuestion_AAAA_unset _ _ _ _ _ _ hp hAAAA h6]
        · simp [handleQuestion_AAAA _ _ _ _ _ _ hp hAAAA h6]
      · by_cases hANY : q.Qtype = TypeANY
        · simp [handleQuestion_ANY _ _ _ _ _ _ hp hANY]
        · by_cases hNB : q.Qtype = typeNetBios
          · simp [handleQuestion_NetBIOS _ _ _ _ _ _ hp hNB]
          · simp [handleQuestion_unhandled _ _ _ _ _ _ hp hA hAAAA hANY hNB]

theorem processQuestions_log (env : Env) (rw : ResponseWriter) (config : Config) (peer : IP)
    (qs : List Question) (st : LoopState) :
    (processQuestions env rw config peer st qs).2 =
      st.2 ++ qs.flatMap (questionEvents env rw config peer) := by
  induction qs generalizing st with
  | nil => simp [processQuestions_nil]
  | cons q qs ih =>
    rw [processQuestions_cons, ih, handleQuestion_log]
    simp [List.flatMap_cons, List.append_assoc]

theorem createDNSReplyFromRequest_snd (env : Env) (rw : ResponseWriter) (request : Msg)
    (config : Config) (peer : IP) (h : toIP rw.RemoteAddr = Except.ok peer) :
    (createDNSReplyFromRequest env rw request config).2 =
      request.Question.flatMap (questionEvents env rw config peer) := by
  unfold createDNSReplyFromRequest
  rw [h]
  simp only []
  split <;> simp [processQuestions_log]

theorem createDNSReplyFromRequest_error (env : Env) (rw : ResponseWriter) (request : Msg)
    (config : Config) (err : String) (h : toIP rw.RemoteAddr = Except.error err) :
    createDNSReplyFromRequest env rw request config = (none, [LogEvent.Errorf err]) := by
  unfold createDNSReplyFromRequest
  rw [h]

/-- C1: `createDNSReplyFromRequest` returns `nil` exactly when the answer list
accumulated over the request's questions is empty, and a reply exactly when it
is not; a returned reply carries that accumulated list, which is never empty.
A reply exists exactly when the peer address can be extracted and some
question contributes a record. -/
theorem createDNSReplyFromRequest_reply_iff_answers (env : Env) (rw : ResponseWriter)
    (request : Msg) (config : Config) :
    ((createDNSReplyFromRequest env rw request config).1 = none ↔
        accumulatedAnswers env rw request config = []) ∧
    ((createDNSReplyFromRequest env rw request config).1.isSome = true ↔
        accumulatedAnswers env rw request config ≠ []) ∧
    (∀ reply, (createDNSReplyFromRequest env rw request config).1 = some reply →
        reply.Answer = accumulatedAnswers env rw request config ∧ reply.Answer ≠ []) ∧
    ((createDNSReplyFromRequest env rw request config).1.isSome = true ↔
        ∃ peer, toIP rw.RemoteAddr = Except.ok peer ∧
          ∃ q ∈ request.Question, questionRecords env config peer q ≠ []) := by
  cases hip : toIP rw.RemoteAddr with
  | error err =>
    have hres := createDNSReplyFromRequest_error env rw request config err hip
    have hacc : accumulatedAnswers env rw request config = [] := by
      unfold accumulatedAnswers; rw [hip]
    rw [hres, hacc]
    simp
  | ok peer =>
    have hres := createDNSReplyFromRequest_fst env rw request config peer hip
    have hacc : accumulatedAnswers env rw request config =
        (processQuestions env rw config peer (SetReply {} request, [])
          request.Question).1.Answer := by
      unfold accumulatedAnswers; rw [hip]
    have hflat := accumulatedAnswers_ok env rw request config peer hip
    rw [hres]
    by_cases hnil : (processQuestions env rw config peer (SetReply {} request, [])
        request.Question).1.Answer = []
    · have hacc0 : accumulatedAnswers env rw request config = [] := by rw [hacc, hnil]
      rw [if_pos hnil, hacc0]
      refine ⟨by simp, by simp, by simp, ?_⟩
      constructor
      · intro h; simp at h
      · rintro ⟨peer2, hp2, q, hq, hne⟩
        exfalso
        have hpe : peer2 = peer := (Except.ok.inj hp2).symm
        subst hpe
        rw [hflat] at hacc0
        have := List.flatMap_eq_nil_iff.mp hacc0 q hq
        exact hne this
    · have haccne : accumulatedAnswers env rw request config ≠ [] := by rw [hacc]; exact hnil
      rw [if_neg hnil]
      refine ⟨by simp [haccne], by simp [haccne], ?_, ?_⟩
      · intro reply hr
        have : reply = (processQuestions env rw config peer (SetReply {} request, [])
            request.Question).1 := (Option.some.inj hr).symm
        subst this
        exact ⟨hacc.symm, hnil⟩
      · constructor
        · intro _
          refine ⟨peer, rfl, ?_⟩
          rw [hflat] at haccne
          by_contra hcon
          push_neg at hcon
          exact haccne (List.flatMap_eq_nil_iff.mpr hcon)
        · intro _; simp

/-- C2: a question of any type whose normalized name the admission policy
rejects contributes no answer record, makes exactly one logger call, the
`IgnoreDNS` event (so no `Query` event), leaves the reply under construction
untouched, and the loop goes on with the questions after it: in a request
`pre ++ q :: post` the answers are those of `pre` and `post`, and the trace is
that of `pre`, the one `IgnoreDNS` event, then that of `post`. -/
theorem rejected_question_is_ignored (env : Env) (rw : ResponseWriter) (config : Config)
    (peer : IP) (st : LoopState) (pre post : List Question) (q : Question)
    (h : env.shouldRespondToNameResolutionQuery config (normalizedNameFromQuery env q) peer
      = false) :
    questionRecords env config peer q = [] ∧
    questionEvents env rw config peer q =
      [LogEvent.IgnoreDNS (normalizedNameFromQuery env q) (queryType env q) peer] ∧
    handleQuestion env rw config peer st q =
      (st.1, st.2 ++
        [LogEvent.IgnoreDNS (normalizedNameFromQuery env q) (queryType env q) peer]) ∧
    processQuestions env rw config peer st (pre ++ q :: post) =
      processQuestions env rw config peer
        ((processQuestions env rw config peer st pre).1,
          (processQuestions env rw config peer st pre).2 ++
            [LogEvent.IgnoreDNS (normalizedNameFromQuery env q) (queryType env q) peer])
        post ∧
    (∀ request : Msg, toIP rw.RemoteAddr = Except.ok peer →
      request.Question = pre ++ q :: post →
      accumulatedAnswers env rw request config =
        pre.flatMap (questionRecords env config peer) ++
          post.flatMap (questionRecords env config peer) ∧
      (createDNSReplyFromRequest env rw request config).2 =
        pre.flatMap (questionEvents env rw config peer) ++
          [LogEvent.IgnoreDNS (normalizedNameFromQuery env q) (queryType env q) peer] ++
          post.flatMap (questionEvents env rw config peer)) := by
  have hrec : questionRecords env config peer q = [] := by
    unfold questionRecords admitted
    rw [h]; rfl
  have hev : questionEvents env rw config peer q =
      [LogEvent.IgnoreDNS (normalizedNameFromQuery env q) (queryType env q) peer] := by
    unfold questionEvents
    rw [handleQuestion_rejected _ _ _ _ _ _ h]
    rfl
  refine ⟨hrec, hev, handleQuestion_rejected _ _ _ _ _ _ h, ?_, ?_⟩
  · rw [processQuestions_append, processQuestions_cons,
      handleQuestion_rejected _ _ _ _ _ _ h]
  · intro request hip hqs
    constructor
    · rw [accumulatedAnswers_ok env rw request config peer hip, hqs]
      simp [List.flatMap_append, List.flatMap_cons, hrec]
    · rw [createDNSReplyFromRequest_snd env rw request config peer hip, hqs]
      simp [List.flatMap_append, List.flatMap_cons, hev]

theorem rejected_question_is_ignored_witness :
    (scenarioEnv (allowOnly "gateway.internal")).shouldRespondToNameResolutionQuery
        (scenarioConfig relay4 relay6)
        (normalizedNameFromQuery (scenarioEnv (allowOnly "gateway.internal")) rejectedQuestion)
        scenarioPeer = false ∧
    questionRecords (scenarioEnv (allowOnly "gateway.internal"))
        (scenarioConfig relay4 relay6) scenarioPeer rejectedQuestion = [] ∧
    questionEvents (scenarioEnv (allowOnly "gateway.internal")) scenarioWriter
        (scenarioConfig relay4 relay6) scenarioPeer rejectedQuestion =
      [LogEvent.IgnoreDNS "other.internal" "A" scenarioPeer] :=
  ⟨by decide,
    (rejected_question_is_ignored (scenarioEnv (allowOnly "gateway.internal")) scenarioWriter
      (scenarioConfig relay4 relay6) scenarioPeer ({}, []) [] [gatewayQuestion]
      rejectedQuestion (by decide)).1,
    (rejected_question_is_ignored (scenarioEnv (allowOnly "gateway.internal")) scenarioWriter
      (scenarioConfig relay4 relay6) scenarioPeer ({}, []) [] [gatewayQuestion]
      rejectedQuestion (by decide)).2.1⟩

/-! ## Whole-second durations convert exactly -/

theorem bitLenAux_le (fuel : Nat) : ∀ (n k : Nat), n < 2 ^ k → bitLenAux fuel n ≤ k := by
  induction fuel with
  | zero => intro n k _; simp [bitLenAux]
  | succ fuel ih =>
    intro n k hn
    unfold bitLenAux
    by_cases h0 : n = 0
    · simp [h0]
    · rw [if_neg h0]
      cases k with
      | zero => simp at hn; exact absurd hn h0
      | succ k =>
        have : n / 2 < 2 ^ k := by
          rw [Nat.div_lt_iff_lt_mul (by norm_num)]
          rw [pow_succ] at hn
          exact hn
        exact Nat.succ_le_succ (ih _ _ this)

theorem bitLen_le (n k : Nat) (h : n < 2 ^ k) : bitLen n ≤ k :=
  bitLenAux_le n n k h

theorem roundHalfEven_mul (a d : Nat) (hd : 0 < d) : roundHalfEven (a * d) d = a := by
  unfold roundHalfEven
  simp [Nat.mul_div_cancel _ hd, hd]

theorem roundFloat64_zero (d : Nat) : roundFloat64 ⟨0, d⟩ = ⟨0, 1⟩ := by
  simp [roundFloat64]

theorem roundFloat64_scaled (n t : Nat) (hn : n < 2 ^ 53) :
    (roundFloat64 ⟨n * 2 ^ t, 2 ^ t⟩).floor = n := by
  have h2 : 0 < 2 ^ t := Nat.two_pow_pos t
  by_cases h0 : n = 0
  · subst h0; simp [roundFloat64, Frac.floor]
  · have hpos : 0 < n := Nat.pos_of_ne_zero h0
    have hb : bitLen n ≤ 53 := bitLen_le n 53 hn
    have hle : 2 ^ t ≤ n * 2 ^ t := Nat.le_mul_of_pos_left _ hpos
    have hne : ¬ (n * 2 ^ t = 0 ∨ 2 ^ t = 0) := by
      intro h
      rcases h with h | h
      · exact absurd h (Nat.mul_ne_zero h0 (Nat.ne_of_gt h2))
      · exact absurd h (Nat.ne_of_gt h2)
    unfold roundFloat64
    simp only [hne, if_false, hle, if_true, Nat.mul_div_cancel _ h2, hb]
    have : n * 2 ^ t * 2 ^ (53 - bitLen n) = n * 2 ^ (53 - bitLen n) * 2 ^ t := by ring
    rw [this, roundHalfEven_mul _ _ h2]
    simp [Frac.floor, Nat.mul_div_cancel _ (Nat.two_pow_pos _)]

theorem roundFloat64_nat (n : Nat) (hn : n < 2 ^ 53) :
    ∃ t, roundFloat64 ⟨n, 1⟩ = ⟨n * 2 ^ t, 2 ^ t⟩ := by
  by_cases h0 : n = 0
  · subst h0; exact ⟨0, by simp [roundFloat64]⟩
  · have hpos : 1 ≤ n := Nat.pos_of_ne_zero h0
    have hb : bitLen n ≤ 53 := bitLen_le n 53 hn
    refine ⟨53 - bitLen n, ?_⟩
    unfold roundFloat64
    have h1 := roundHalfEven_mul (n * 2 ^ (53 - bitLen n)) 1 (by norm_num)
    rw [Nat.mul_one] at h1
    simp [h0, hpos, hb, h1]

/-- A TTL of a whole number `n < 2^32` of seconds converts to `n`. -/
theorem ttlSeconds_whole (config : Config) (n : Nat) (hn : n < 2 ^ 32)
    (h : config.TTL = (n : Int) * (Second : Int)) : ttlSeconds config = n := by
  have hn53 : n < 2 ^ 53 := lt_trans hn (by norm_num)
  obtain ⟨t, ht⟩ := roundFloat64_nat n hn53
  have habs : config.TTL.natAbs = n * Second := by
    rw [h]; exact_mod_cast Int.natAbs_ofNat (n * Second)
  have hsec : n * Second / Second = n := Nat.mul_div_cancel _ (by decide)
  have hnsec : n * Second % Second = 0 := Nat.mul_mod_left _ _
  have hneg : ¬ (config.TTL < 0) := by
    rw [h]; exact not_lt.mpr (by positivity)
  unfold ttlSeconds Duration.Seconds uint32OfFloat64
  simp only [habs, hsec, hnsec, roundFloat64_zero, Frac.divNat, ht, Frac.add, hneg,
    decide_False, Nat.mul_one, Nat.zero_mul, Nat.add_zero]
  simp only [roundFloat64_scaled n t hn53]
  exact Nat.mod_eq_of_lt hn

/-! ## Durations below `2^23` seconds convert to their whole seconds -/

theorem roundHalfEven_le (p q c : Nat) (h : p ≤ c * q) (hq : 0 < q) :
    roundHalfEven p q ≤ c := by
  unfold roundHalfEven
  rcases Nat.lt_or_ge p (c * q) with hlt | hge
  · have hn : p / q < c := (Nat.div_lt_iff_lt_mul hq).mpr hlt
    simp only []
    split
    · exact Nat.le_of_lt hn
    · split
      · exact hn
      · split
        · exact Nat.le_of_lt hn
        · exact hn
  · have hp : p = c * q := Nat.le_antisymm h hge
    subst hp
    simp [Nat.mul_div_cancel _ hq, hq]

theorem le_roundHalfEven (p q c : Nat) (h : c * q ≤ p) (hq : 0 < q) :
    c ≤ roundHalfEven p q := by
  have hn : c ≤ p / q := (Nat.le_div_iff_mul_le hq).mpr h
  unfold roundHalfEven
  simp only []
  split
  · exact hn
  · split
    · exact Nat.le_succ_of_le hn
    · split
      · exact hn
      · exact Nat.le_succ_of_le hn

theorem Frac.within_floor (s : Nat) (x : Frac) (h : x.within s) : x.floor = s := by
  obtain ⟨hd, hlo, hhi⟩ := h
  unfold Frac.floor
  apply Nat.le_antisymm
  · apply Nat.le_of_lt_succ
    rw [Nat.div_lt_iff_lt_mul hd]
    have h30 : 0 < 2 ^ 30 := Nat.two_pow_pos 30
    by_contra hcon
    push_neg at hcon
    have : (s + 1) * x.den * 2 ^ 30 ≤ x.num * 2 ^ 30 := Nat.mul_le_mul_right _ hcon
    have h2 : (s + 1) * 2 ^ 30 * x.den = (s + 1) * x.den * 2 ^ 30 := by ring
    omega
  · exact (Nat.le_div_iff_mul_le hd).mpr hlo

theorem scaled_round_within (s p q t : Nat) (hq : 0 < q) (ht : 30 ≤ t)
    (hlo : s * q ≤ p) (hhi : p * 2 ^ 30 + q ≤ (s + 1) * 2 ^ 30 * q) :
    Frac.within s ⟨roundHalfEven (p * 2 ^ t) q, 2 ^ t⟩ := by
  obtain ⟨u, rfl⟩ := Nat.exists_eq_add_of_le ht
  have hU : 0 < 2 ^ u := Nat.two_pow_pos u
  have hpow : 2 ^ (30 + u) = 2 ^ 30 * 2 ^ u := pow_add 2 30 u
  refine ⟨Nat.two_pow_pos _, ?_, ?_⟩
  · show s * 2 ^ (30 + u) ≤ roundHalfEven (p * 2 ^ (30 + u)) q
    apply le_roundHalfEven _ _ _ _ hq
    calc s * 2 ^ (30 + u) * q = s * q * 2 ^ (30 + u) := by ring
      _ ≤ p * 2 ^ (30 + u) := Nat.mul_le_mul_right _ hlo
  · show roundHalfEven (p * 2 ^ (30 + u)) q * 2 ^ 30 + 2 ^ (30 + u)
        ≤ (s + 1) * 2 ^ 30 * 2 ^ (30 + u)
    have hc : 2 ^ u ≤ (s + 1) * 2 ^ 30 * 2 ^ u := by
      have : 1 ≤ (s + 1) * 2 ^ 30 := Nat.mul_pos (Nat.succ_pos s) (Nat.two_pow_pos 30)
      calc 2 ^ u = 1 * 2 ^ u := (Nat.one_mul _).symm
        _ ≤ (s + 1) * 2 ^ 30 * 2 ^ u := Nat.mul_le_mul_right _ this
    obtain ⟨c, hcdef⟩ := Nat.exists_eq_add_of_le hc
    have hbound : p * 2 ^ (30 + u) ≤ c * q := by
      have h1 : (p * 2 ^ 30 + q) * 2 ^ u ≤ (s + 1) * 2 ^ 30 * q * 2 ^ u :=
        Nat.mul_le_mul_right _ hhi
      have h2 : (s + 1) * 2 ^ 30 * q * 2 ^ u = (2 ^ u + c) * q := by
        rw [← hcdef]; ring
      have h3 : (p * 2 ^ 30 + q) * 2 ^ u = p * 2 ^ (30 + u) + 2 ^ u * q := by
        rw [hpow]; ring
      rw [h2, h3, Nat.add_mul] at h1
      omega
    have hr := roundHalfEven_le _ _ _ hbound hq
    calc roundHalfEven (p * 2 ^ (30 + u)) q * 2 ^ 30 + 2 ^ (30 + u)
        ≤ c * 2 ^ 30 + 2 ^ (30 + u) := Nat.add_le_add_right (Nat.mul_le_mul_right _ hr) _
      _ = (2 ^ u + c) * 2 ^ 30 := by rw [hpow]; ring
      _ = (s + 1) * 2 ^ 30 * 2 ^ (30 + u) := by rw [← hcdef, hpow]; ring

theorem roundFloat64_within (s : Nat) (x : Frac) (hs : s < 2 ^ 23) (h : x.within s) :
    (roundFloat64 x).within s := by
  obtain ⟨hd, hlo, hhi⟩ := h
  have hlt : x.num < (s + 1) * x.den := by
    by_contra hcon
    push_neg at hcon
    have : (s + 1) * x.den * 2 ^ 30 ≤ x.num * 2 ^ 30 := Nat.mul_le_mul_right _ hcon
    have h2 : (s + 1) * 2 ^ 30 * x.den = (s + 1) * x.den * 2 ^ 30 := by ring
    omega
  unfold roundFloat64
  by_cases h0 : x.num = 0
  · have hs0 : s = 0 := by
      rw [h0] at hlo
      rcases Nat.eq_zero_or_pos s with h | h
      · exact h
      · exact absurd (Nat.mul_pos h hd) (by omega)
    subst hs0
    simp only [h0, true_or, if_true]
    exact ⟨by norm_num, by norm_num, by norm_num⟩
  · have hne : ¬ (x.num = 0 ∨ x.den = 0) := by
      intro h; rcases h with h | h
      · exact h0 h
      · omega
    rw [if_neg hne]
    by_cases hge : x.den ≤ x.num
    · have hdiv : x.num / x.den = s := by
        apply Nat.le_antisymm
        · exact Nat.le_of_lt_succ ((Nat.div_lt_iff_lt_mul hd).mpr hlt)
        · exact (Nat.le_div_iff_mul_le hd).mpr hlo
      have hb : bitLen s ≤ 23 := bitLen_le s 23 hs
      simp only [hge, if_true, hdiv]
      rw [if_pos (by omega)]
      exact scaled_round_within s x.num x.den (53 - bitLen s) hd (by omega) hlo hhi
    · simp only [hge, if_false]
      exact scaled_round_within s x.num x.den _ hd (by omega) hlo hhi

/-- A TTL of `d` nanoseconds, `d` below `2^23` seconds, converts to its whole
seconds `d / Second`. -/
theorem ttlSeconds_floor (config : Config) (d : Nat) (hd : d < 2 ^ 23 * Second)
    (h : config.TTL = (d : Int)) : ttlSeconds config = d / Second := by
  have hSec : 0 < Second := by decide
  have hsec : d / Second < 2 ^ 23 := (Nat.div_lt_iff_lt_mul hSec).mpr hd
  have hnsec : d % Second < Second := Nat.mod_lt _ hSec
  obtain ⟨t1, ht1⟩ := roundFloat64_nat (d / Second) (lt_trans hsec (by norm_num))
  obtain ⟨t2, ht2⟩ := roundFloat64_nat (d % Second)
    (lt_trans hnsec (by unfold Second; norm_num))
  have habs : config.TTL.natAbs = d := by rw [h]; exact Int.natAbs_ofNat d
  have hneg : ¬ (config.TTL < 0) := by rw [h]; exact not_lt.mpr (Int.ofNat_nonneg d)
  have hfrac : (roundFloat64 (Frac.divNat ⟨d % Second * 2 ^ t2, 2 ^ t2⟩ Second)).within 0 := by
    apply roundFloat64_within 0 _ (by norm_num)
    have h2 : 0 < 2 ^ t2 := Nat.two_pow_pos t2
    refine ⟨Nat.mul_pos h2 hSec, by simp, ?_⟩
    show d % Second * 2 ^ t2 * 2 ^ 30 + 2 ^ t2 * Second ≤ (0 + 1) * 2 ^ 30 * (2 ^ t2 * Second)
    have hle : d % Second * 2 ^ 30 + Second ≤ 2 ^ 30 * Second := by
      unfold Second at hnsec ⊢
      omega
    calc d % Second * 2 ^ t2 * 2 ^ 30 + 2 ^ t2 * Second
        = (d % Second * 2 ^ 30 + Second) * 2 ^ t2 := by ring
      _ ≤ 2 ^ 30 * Second * 2 ^ t2 := Nat.mul_le_mul_right _ hle
      _ = (0 + 1) * 2 ^ 30 * (2 ^ t2 * Second) := by ring
  have hsum : (Frac.add ⟨d / Second * 2 ^ t1, 2 ^ t1⟩
      (roundFloat64 (Frac.divNat ⟨d % Second * 2 ^ t2, 2 ^ t2⟩ Second))).within (d / Second) := by
    obtain ⟨hqd, -, hqhi⟩ := hfrac
    generalize roundFloat64 (Frac.divNat ⟨d % Second * 2 ^ t2, 2 ^ t2⟩ Second) = y at hqd hqhi
    have h1 : 0 < 2 ^ t1 := Nat.two_pow_pos t1
    refine ⟨Nat.mul_pos h1 hqd, ?_, ?_⟩
    · show d / Second * (2 ^ t1 * y.den) ≤ d / Second * 2 ^ t1 * y.den + y.num * 2 ^ t1
      rw [← Nat.mul_assoc]
      exact Nat.le_add_right _ _
    · show (d / Second * 2 ^ t1 * y.den + y.num * 2 ^ t1) * 2 ^ 30 + 2 ^ t1 * y.den
          ≤ (d / Second + 1) * 2 ^ 30 * (2 ^ t1 * y.den)
      have hq : (y.num * 2 ^ 30 + y.den) * 2 ^ t1 ≤ (0 + 1) * 2 ^ 30 * y.den * 2 ^ t1 :=
        Nat.mul_le_mul_right _ hqhi
      calc (d / Second * 2 ^ t1 * y.den + y.num * 2 ^ t1) * 2 ^ 30 + 2 ^ t1 * y.den
          = d / Second * 2 ^ 30 * (2 ^ t1 * y.den) + (y.num * 2 ^ 30 + y.den) * 2 ^ t1 := by
            ring
        _ ≤ d / Second * 2 ^ 30 * (2 ^ t1 * y.den) + (0 + 1) * 2 ^ 30 * y.den * 2 ^ t1 :=
            Nat.add_le_add_left hq _
        _ = (d / Second + 1) * 2 ^ 30 * (2 ^ t1 * y.den) := by ring
  have hfinal := Frac.within_floor _ _ (roundFloat64_within _ _ hsec hsum)
  unfold ttlSeconds Duration.Seconds uint32OfFloat64
  simp only [habs, ht1, ht2, hneg, decide_False, hfinal]
  exact Nat.mod_eq_of_lt (lt_trans hsec (by norm_num))

/-! ## Requests with a single question -/

theorem createDNSReplyFromRequest_single (env : Env) (rw : ResponseWriter) (request : Msg)
    (config : Config) (peer : IP) (q : Question)
    (hip : toIP rw.RemoteAddr = Except.ok peer) (hqs : request.Question = [q]) :
    (createDNSReplyFromRequest env rw request config).1 =
      if (handleQuestion env rw config peer (SetReply {} request, []) q).1.Answer = [] then none
      else some (handleQuestion env rw config peer (SetReply {} request, []) q).1 := by
  rw [createDNSReplyFromRequest_fst env rw request config peer hip, hqs]
  rfl

/-- C4, as the code has it: a request with one admitted `ANY` question, both
relay addresses set, is answered with exactly two records: an `A` record with
`RelayIPv4` followed by an `AAAA` record with `RelayIPv6`, both with the
question's name, class INET and the TTL `uint32(config.TTL.Seconds())`, which
for a configured TTL from zero to below `2^23` seconds is its number of whole
seconds. -/
theorem any_question_both_relays (env : Env) (rw : ResponseWriter) (request : Msg)
    (config : Config) (peer : IP) (q : Question) (v4 v6 : List Nat)
    (hip : toIP rw.RemoteAddr = Except.ok peer) (hqs : request.Question = [q])
    (hq : q.Qtype = TypeANY)
    (hadm : env.shouldRespondToNameResolutionQuery config (normalizedNameFromQuery env q) peer
      = true)
    (h4 : config.RelayIPv4 = some v4) (h6 : config.RelayIPv6 = some v6) :
    (∃ reply, (createDNSReplyFromRequest env rw request config).1 = some reply ∧
      reply.Answer =
        [RR.A { Name := q.Name, Rrtype := TypeA, Class := ClassINET,
                Ttl := ttlSeconds config } (some v4),
         RR.AAAA { Name := q.Name, Rrtype := TypeAAAA, Class := ClassINET,
                   Ttl := ttlSeconds config } (some v6)]) ∧
    (∀ d : Nat, d < 2 ^ 23 * Second → config.TTL = (d : Int) →
      ttlSeconds config = d / Second) := by
  refine ⟨?_, fun d hd h => ttlSeconds_floor config d hd h⟩
  rw [createDNSReplyFromRequest_single env rw request config peer q hip hqs,
    handleQuestion_ANY env rw config peer _ q hadm hq]
  simp [h4, h6, SetReply_answer]

theorem any_question_both_relays_witness :
    toIP scenarioWriter.RemoteAddr = Except.ok scenarioPeer ∧
    (queryOf [anyQuestion]).Question = [anyQuestion] ∧
    anyQuestion.Qtype = TypeANY ∧
    (scenarioEnv allowAll).shouldRespondToNameResolutionQuery (scenarioConfig relay4 relay6)
      (normalizedNameFromQuery (scenarioEnv allowAll) anyQuestion) scenarioPeer = true ∧
    (scenarioConfig relay4 relay6).RelayIPv4 = some [10, 0, 2, 2] ∧
    (scenarioConfig relay4 relay6).RelayIPv6 =
      some [0xfe, 0x80, 0, 0, 0, 0, 0, 0, 0, 0, 0, 0, 0, 0, 0, 2] ∧
    ∃ reply, (createDNSReplyFromRequest (scenarioEnv allowAll) scenarioWriter
        (queryOf [anyQuestion]) (scenarioConfig relay4 relay6)).1 = some reply ∧
      reply.Answer =
        [RR.A { Name := "gateway.internal.", Rrtype := 1, Class := 1, Ttl := 60 }
            (some [10, 0, 2, 2]),
         RR.AAAA { Name := "gateway.internal.", Rrtype := 28, Class := 1, Ttl := 60 }
            (some [0xfe, 0x80, 0, 0, 0, 0, 0, 0, 0, 0, 0, 0, 0, 0, 0, 2])] :=
  ⟨rfl, rfl, rfl, rfl, rfl, rfl,
    (any_question_both_relays (scenarioEnv allowAll) scenarioWriter (queryOf [anyQuestion])
      (scenarioConfig relay4 relay6) scenarioPeer anyQuestion [10, 0, 2, 2]
      [0xfe, 0x80, 0, 0, 0, 0, 0, 0, 0, 0, 0, 0, 0, 0, 0, 2] rfl rfl rfl rfl rfl rfl).1⟩

/-- C6: a request with one admitted NetBIOS question (type 32), `RelayIPv4`
set, is answered by a reply with an empty question section, the
checking-disabled flag cleared, and exactly one NIMLOC record: the question's
name, class INET, and the locator `encodeNetBIOSLocator(RelayIPv4.To4())`. -/
theorem netbios_question_reply (env : Env) (rw : ResponseWriter) (request : Msg)
    (config : Config) (peer : IP) (q : Question)
    (hip : toIP rw.RemoteAddr = Except.ok peer) (hqs : request.Question = [q])
    (hq : q.Qtype = typeNetBios)
    (hadm : env.shouldRespondToNameResolutionQuery config (normalizedNameFromQuery env q) peer
      = true)
    (_h4 : config.RelayIPv4 ≠ none) :
    ∃ reply, (createDNSReplyFromRequest env rw request config).1 = some reply ∧
      reply.Question = [] ∧ reply.CheckingDisabled = false ∧
      reply.Answer =
        [RR.NIMLOC { Name := q.Name, Rrtype := TypeNIMLOC, Class := ClassINET,
                     Ttl := ttlSeconds config }
          (env.encodeNetBIOSLocator config.RelayIPv4.To4)] := by
  rw [createDNSReplyFromRequest_single env rw request config peer q hip hqs,
    handleQuestion_NetBIOS env rw config peer _ q hadm hq]
  simp [SetReply_answer]

theorem netbios_question_reply_witness :
    toIP scenarioWriter.RemoteAddr = Except.ok scenarioPeer ∧
    (queryOf [netBIOSQuestion]).Question = [netBIOSQuestion] ∧
    netBIOSQuestion.Qtype = typeNetBios ∧
    (scenarioEnv allowAll).shouldRespondToNameResolutionQuery (scenarioConfig relay4 none)
      (normalizedNameFromQuery (scenarioEnv allowAll) netBIOSQuestion) scenarioPeer = true ∧
    (scenarioConfig relay4 none).RelayIPv4 ≠ none ∧
    ∃ reply, (createDNSReplyFromRequest (scenarioEnv allowAll) scenarioWriter
        (queryOf [netBIOSQuestion]) (scenarioConfig relay4 none)).1 = some reply ∧
      reply.Question = [] ∧ reply.CheckingDisabled = false ∧
      reply.Answer =
        [RR.NIMLOC { Name := "EIEPFDFECACACACACACACACACACACACA", Rrtype := 32, Class := 1,
                     Ttl := 60 }
          ((scenarioEnv allowAll).encodeNetBIOSLocator (some [10, 0, 2, 2]))] :=
  ⟨rfl, rfl, rfl, rfl, by decide,
    netbios_question_reply (scenarioEnv allowAll) scenarioWriter (queryOf [netBIOSQuestion])
      (scenarioConfig relay4 none) scenarioPeer netBIOSQuestion rfl rfl rfl rfl (by decide)⟩

/-- C9, as the code has it: a request with one admitted `A` question,
`RelayIPv4` set, is answered with exactly one record: the question's name as
sent (trailing dot included),
type A, class INET, the TTL `uint32(config.TTL.Seconds())` and the address
`RelayIPv4`. For a configured TTL of a whole number `n < 2^32` of seconds that
TTL is `n`, and for any configured TTL from zero to below `2^23` seconds it is
the number of whole seconds. -/
theorem single_A_question_reply (env : Env) (rw : ResponseWriter) (request : Msg)
    (config : Config) (peer : IP) (q : Question)
    (hip : toIP rw.RemoteAddr = Except.ok peer) (hqs : request.Question = [q])
    (hq : q.Qtype = TypeA)
    (hadm : env.shouldRespondToNameResolutionQuery config (normalizedNameFromQuery env q) peer
      = true)
    (h4 : config.RelayIPv4 ≠ none) :
    (∃ reply, (createDNSReplyFromRequest env rw request config).1 = some reply ∧
      reply.Answer =
        [RR.A { Name := q.Name, Rrtype := TypeA, Class := ClassINET,
                Ttl := ttlSeconds config } config.RelayIPv4]) ∧
    (∀ n : Nat, n < 2 ^ 32 → config.TTL = (n : Int) * (Second : Int) →
      ttlSeconds config = n) ∧
    (∀ d : Nat, d < 2 ^ 23 * Second → config.TTL = (d : Int) →
      ttlSeconds config = d / Second) := by
  refine ⟨?_, fun n hn h => ttlSeconds_whole config n hn h,
    fun d hd h => ttlSeconds_floor config d hd h⟩
  rw [createDNSReplyFromRequest_single env rw request config peer q hip hqs,
    handleQuestion_A env rw config peer _ q hadm hq h4]
  simp [SetReply_answer]

theorem single_A_question_reply_witness :
    toIP scenarioWriter.RemoteAddr = Except.ok (some [192, 0, 2, 5]) ∧
    (queryOf [gatewayQuestion]).Question = [gatewayQuestion] ∧
    gatewayQuestion.Qtype = TypeA ∧
    (scenarioEnv allowAll).shouldRespondToNameResolutionQuery (scenarioConfig relay4 none)
      (normalizedNameFromQuery (scenarioEnv allowAll) gatewayQuestion) (some [192, 0, 2, 5])
      = true ∧
    (scenarioConfig relay4 none).RelayIPv4 ≠ none ∧
    (scenarioConfig relay4 none).TTL = 60 * (Second : Int) ∧
    ∃ reply, (createDNSReplyFromRequest (scenarioEnv allowAll) scenarioWriter
        (queryOf [gatewayQuestion]) (scenarioConfig relay4 none)).1 = some reply ∧
      reply.Answer =
        [RR.A { Name := "gateway.internal.", Rrtype := 1, Class := 1, Ttl := 60 }
            (some [10, 0, 2, 2])] :=
  ⟨rfl, rfl, rfl, rfl, by decide, by decide,
    (single_A_question_reply (scenarioEnv allowAll) scenarioWriter (queryOf [gatewayQuestion])
      (scenarioConfig relay4 none) (some [192, 0, 2, 5]) gatewayQuestion rfl rfl rfl rfl
      (by decide)).1⟩

/-! ## Requests with several questions -/

theorem flatMap_questionRecords (env : Env) (config : Config) (peer : IP)
    (qs : List Question) :
    qs.flatMap (questionRecords env config peer) =
      (qs.filter (admitted env config peer)).flatMap (switchRecords env config) := by
  induction qs with
  | nil => rfl
  | cons q qs ih =>
    rw [List.flatMap_cons, ih]
    cases hadm : admitted env config peer q
    · simp [questionRecords, hadm]
    · simp [questionRecords, hadm, List.flatMap_cons]

theorem createDNSReplyFromRequest_some_answer (env : Env) (rw : ResponseWriter)
    (request : Msg) (config : Config) (reply : Msg)
    (h : (createDNSReplyFromRequest env rw request config).1 = some reply) :
    reply.Answer = accumulatedAnswers env rw request config := by
  cases hip : toIP rw.RemoteAddr with
  | error err =>
    rw [createDNSReplyFromRequest_error env rw request config err hip] at h
    exact absurd h (by simp)
  | ok peer =>
    rw [createDNSReplyFromRequest_fst env rw request config peer hip] at h
    have hacc : accumulatedAnswers env rw request config =
        (processQuestions env rw config peer (SetReply {} request, [])
          request.Question).1.Answer := by
      unfold accumulatedAnswers; rw [hip]
    split at h
    · exact absurd h (by simp)
    · rw [hacc, ← Option.some.inj h]

theorem createDNSReplyFromRequest_isSome_iff (env : Env) (rw : ResponseWriter)
    (request : Msg) (config : Config) :
    (createDNSReplyFromRequest env rw request config).1.isSome = true ↔
      accumulatedAnswers env rw request config ≠ [] := by
  cases hip : toIP rw.RemoteAddr with
  | error err =>
    have hacc : accumulatedAnswers env rw request config = [] := by
      unfold accumulatedAnswers; rw [hip]
    rw [createDNSReplyFromRequest_error env rw request config err hip, hacc]
    simp
  | ok peer =>
    have hacc : accumulatedAnswers env rw request config =
        (processQuestions env rw config peer (SetReply {} request, [])
          request.Question).1.Answer := by
      unfold accumulatedAnswers; rw [hip]
    rw [createDNSReplyFromRequest_fst env rw request config peer hip, hacc]
    split <;> simp [*]

/-- C5: the answer list of a reply is the concatenation, in the order of the
request's questions, of the records the `switch` produces for the admitted
questions; questions the policy rejects contribute nothing. For a request of
one admitted and one rejected question, in either order, the accumulated list
is the admitted question's records, any reply carries exactly these, and a
reply is returned exactly when there is at least one. -/
theorem answers_follow_question_order (env : Env) (rw : ResponseWriter) (request : Msg)
    (config : Config) (peer : IP) (hip : toIP rw.RemoteAddr = Except.ok peer) :
    accumulatedAnswers env rw request config =
      (request.Question.filter (admitted env config peer)).flatMap
        (switchRecords env config) ∧
    (∀ reply, (createDNSReplyFromRequest env rw request config).1 = some reply →
      reply.Answer =
        (request.Question.filter (admitted env config peer)).flatMap
          (switchRecords env config)) ∧
    (∀ a r : Question, admitted env config peer a = true → admitted env config peer r = false →
      (request.Question = [a, r] ∨ request.Question = [r, a]) →
      accumulatedAnswers env rw request config = switchRecords env config a ∧
      (∀ reply, (createDNSReplyFromRequest env rw request config).1 = some reply →
        reply.Answer = switchRecords env config a) ∧
      ((createDNSReplyFromRequest env rw request config).1.isSome = true ↔
        switchRecords env config a ≠ [])) := by
  have hacc : accumulatedAnswers env rw request config =
      (request.Question.filter (admitted env config peer)).flatMap
        (switchRecords env config) := by
    rw [accumulatedAnswers_ok env rw request config peer hip, flatMap_questionRecords]
  have hreply : ∀ reply, (createDNSReplyFromRequest env rw request config).1 = some reply →
      reply.Answer = accumulatedAnswers env rw request config := fun reply hr =>
    createDNSReplyFromRequest_some_answer env rw request config reply hr
  refine ⟨hacc, fun reply hr => (hreply reply hr).trans hacc, ?_⟩
  intro a r ha hr hqs
  have hone : accumulatedAnswers env rw request config = switchRecords env config a := by
    rw [hacc]
    rcases hqs with hqs | hqs <;> rw [hqs] <;> simp [List.filter_cons, ha, hr]
  refine ⟨hone, fun reply hrep => (hreply reply hrep).trans hone, ?_⟩
  rw [← hone]
  exact createDNSReplyFromRequest_isSome_iff env rw request config

theorem answers_follow_question_order_witness :
    toIP scenarioWriter.RemoteAddr = Except.ok scenarioPeer ∧
    ∃ reply, (createDNSReplyFromRequest (scenarioEnv (allowOnly "gateway.internal"))
        scenarioWriter (queryOf [rejectedQuestion, anyQuestion, gatewayQuestion])
        (scenarioConfig relay4 relay6)).1 = some reply ∧
      reply.Answer =
        [RR.A { Name := "gateway.internal.", Rrtype := 1, Class := 1, Ttl := 60 } relay4,
         RR.AAAA { Name := "gateway.internal.", Rrtype := 28, Class := 1, Ttl := 60 } relay6,
         RR.A { Name := "gateway.internal.", Rrtype := 1, Class := 1, Ttl := 60 } relay4] :=
  ⟨rfl, _, rfl,
    (answers_follow_question_order (scenarioEnv (allowOnly "gateway.internal"))
      scenarioWriter (queryOf [rejectedQuestion, anyQuestion, gatewayQuestion])
      (scenarioConfig relay4 relay6) scenarioPeer rfl).2.1 _ rfl⟩

/-! ## Name normalization -/

theorem hasSuffix_iff (s suffix : String) :
    HasSuffix s suffix = true ↔ ∃ l, s.data = l ++ suffix.data := by
  unfold HasSuffix
  rw [List.isSuffixOf_iff_suffix]
  constructor
  · rintro ⟨l, hl⟩; exact ⟨l, hl.symm⟩
  · rintro ⟨l, hl⟩; exact ⟨l, hl.symm⟩

theorem getLast?_eq_some_iff_append {α : Type} (l : List α) (a : α) :
    l.getLast? = some a ↔ ∃ l₀, l = l₀ ++ [a] := by
  constructor
  · intro h
    exact ⟨l.dropLast, by
      have := List.dropLast_append_getLast? a h
      exact this.symm⟩
  · rintro ⟨l₀, rfl⟩; simp

theorem hasSuffix_dot (s : String) :
    HasSuffix s "." = true ↔ s.data.getLast? = some '.' := by
  rw [hasSuffix_iff, getLast?_eq_some_iff_append]

theorem trimSuffix_dot (s : String) :
    (TrimSuffix s ".").data = stripTrailingDot s.data := by
  unfold TrimSuffix stripTrailingDot
  by_cases h : HasSuffix s "." = true
  · rw [if_pos h, if_pos ((hasSuffix_dot s).mp h)]
    show s.data.take (s.data.length - 1) = s.data.dropLast
    rw [List.dropLast_eq_take]
  · rw [if_neg h, if_neg (fun h2 => h ((hasSuffix_dot s).mpr h2))]

/-- `TrimSpace` splits the string into leading white space, the trimmed text
and trailing white space; the trimmed text neither starts nor ends with white
space. -/
theorem trimSpace_spec (s : String) :
    ∃ pre post : List Char, s.data = pre ++ (TrimSpace s).data ++ post ∧
      (∀ c ∈ pre, isSpace c = true) ∧ (∀ c ∈ post, isSpace c = true) ∧
      (∀ c, (TrimSpace s).data.head? = some c → isSpace c = false) ∧
      (∀ c, (TrimSpace s).data.getLast? = some c → isSpace c = false) := by
  let a := s.data.dropWhile isSpace
  have hsplit : s.data = s.data.takeWhile isSpace ++ a :=
    (List.takeWhile_append_dropWhile isSpace s.data).symm
  have hrev : a.reverse = a.reverse.takeWhile isSpace ++ a.reverse.dropWhile isSpace :=
    (List.takeWhile_append_dropWhile isSpace a.reverse).symm
  have ha : a = (a.reverse.dropWhile isSpace).reverse ++ (a.reverse.takeWhile isSpace).reverse := by
    have := congrArg List.reverse hrev
    rw [List.reverse_reverse, List.reverse_append] at this
    exact this
  have hlast : ∀ c, ((a.reverse.dropWhile isSpace).reverse).getLast? = some c →
      isSpace c = false := by
    intro c hc
    rw [List.getLast?_reverse] at hc
    have := List.head?_dropWhile_not isSpace a.reverse
    rw [hc] at this
    exact this
  have hhead_a : ∀ c, a.head? = some c → isSpace c = false := by
    intro c hc
    have := List.head?_dropWhile_not isSpace s.data
    show isSpace c = false
    rw [show s.data.dropWhile isSpace = a from rfl, hc] at this
    exact this
  refine ⟨s.data.takeWhile isSpace, (a.reverse.takeWhile isSpace).reverse, ?_, ?_, ?_, ?_, hlast⟩
  · show s.data = s.data.takeWhile isSpace ++ (a.reverse.dropWhile isSpace).reverse ++ _
    rw [List.append_assoc, ← ha]
    exact hsplit
  · intro c hc
    exact (List.mem_takeWhile_imp hc)
  · intro c hc
    rw [List.mem_reverse] at hc
    exact (List.mem_takeWhile_imp hc)
  · intro c hc
    apply hhead_a
    show a.head? = some c
    have hc2 : ((a.reverse.dropWhile isSpace).reverse).head? = some c := hc
    rw [ha]
    cases hl : (a.reverse.dropWhile isSpace).reverse with
    | nil => rw [hl] at hc2; simp at hc2
    | cons x xs => rw [hl] at hc2; simpa using hc2

theorem string_eq_empty_iff (s : String) : s = "" ↔ s.data = [] := by
  constructor
  · intro h; rw [h]
  · intro h; exact String.ext h

theorem normalizedNameFromQuery_eq (env : Env) (q : Question) (hq : q.Qtype ≠ typeNetBios) :
    normalizedNameFromQuery env q =
      if stripTrailingDot (TrimSpace q.Name).data = [] then q.Name
      else ⟨stripTrailingDot (TrimSpace q.Name).data⟩ := by
  unfold normalizedNameFromQuery normalizedName
  rw [if_neg hq]
  simp only [string_eq_empty_iff, trimSuffix_dot]
  split
  · rfl
  · exact String.ext (trimSuffix_dot _)

/-- C7: for a question that is not of NetBIOS type, `normalizedNameFromQuery`
returns the name with the surrounding white space trimmed and one trailing
`.` stripped, unless that is empty, in which case it returns the name as it
was. A non-empty name never normalizes to the empty string; `host.local.`
gives `host.local`, and the root name `.` gives `.`. -/
theorem normalizedNameFromQuery_spec (env : Env) (q : Question)
    (hq : q.Qtype ≠ typeNetBios) :
    (∃ pre t post : List Char, q.Name.data = pre ++ t ++ post ∧
      (∀ c ∈ pre, isSpace c = true) ∧ (∀ c ∈ post, isSpace c = true) ∧
      (∀ c, t.head? = some c → isSpace c = false) ∧
      (∀ c, t.getLast? = some c → isSpace c = false) ∧
      normalizedNameFromQuery env q =
        if stripTrailingDot t = [] then q.Name else ⟨stripTrailingDot t⟩) ∧
    (normalizedNameFromQuery env q =
      if TrimSuffix (TrimSpace q.Name) "." = "" then q.Name
      else TrimSuffix (TrimSpace q.Name) ".") ∧
    (q.Name ≠ "" → normalizedNameFromQuery env q ≠ "") ∧
    (q.Name = "host.local." → normalizedNameFromQuery env q = "host.local") ∧
    (q.Name = "." → normalizedNameFromQuery env q = ".") := by
  have heq := normalizedNameFromQuery_eq env q hq
  refine ⟨?_, ?_, ?_, ?_, ?_⟩
  · obtain ⟨pre, post, h1, h2, h3, h4, h5⟩ := trimSpace_spec q.Name
    exact ⟨pre, (TrimSpace q.Name).data, post, h1, h2, h3, h4, h5, heq⟩
  · unfold normalizedNameFromQuery normalizedName
    rw [if_neg hq]
  · intro hne
    rw [heq]
    split
    · exact hne
    · rename_i h
      intro hcon
      exact h (congrArg String.data hcon)
  · intro h
    rw [heq, h]
    decide
  · intro h
    rw [heq, h]
    decide

theorem normalizedNameFromQuery_spec_witness :
    (Question.mk "host.local." TypeA ClassINET).Qtype ≠ typeNetBios ∧
    normalizedNameFromQuery (scenarioEnv allowAll) (Question.mk "host.local." TypeA ClassINET)
      = "host.local" :=
  ⟨by decide,
    (normalizedNameFromQuery_spec (scenarioEnv allowAll)
      (Question.mk "host.local." TypeA ClassINET) (by decide)).2.2.2.1 rfl⟩

theorem getLast?_append_of_all_space (pre post : List Char)
    (hpre : ∀ c ∈ pre, isSpace c = true) (hpost : ∀ c ∈ post, isSpace c = true)
    (c : Char) (h : (pre ++ post).getLast? = some c) : isSpace c = true := by
  have hmem : c ∈ pre ++ post := List.mem_of_getLast?_eq_some h
  rcases List.mem_append.mp hmem with hm | hm
  · exact hpre c hm
  · exact hpost c hm

/-- C8, as the code has it: for a question that is not of NetBIOS type whose
trimmed name is not the root name `.` and does not end in `..`, the canonical
name does not end with `.`. -/
theorem normalizedNameFromQuery_no_trailing_dot (env : Env) (q : Question)
    (hq : q.Qtype ≠ typeNetBios) (hroot : TrimSpace q.Name ≠ ".")
    (hdots : HasSuffix (TrimSpace q.Name) ".." = false) :
    HasSuffix (normalizedNameFromQuery env q) "." = false := by
  rw [Bool.eq_false_iff, Ne, hasSuffix_dot, normalizedNameFromQuery_eq env q hq]
  obtain ⟨pre, post, hsplit, hpre, hpost, -, -⟩ := trimSpace_spec q.Name
  by_cases hlast : (TrimSpace q.Name).data.getLast? = some '.'
  · obtain ⟨l₀, hl₀⟩ := (getLast?_eq_some_iff_append _ _).mp hlast
    have hstrip : stripTrailingDot (TrimSpace q.Name).data = l₀ := by
      unfold stripTrailingDot
      rw [if_pos hlast, hl₀, List.dropLast_concat]
    rw [hstrip]
    by_cases hnil : l₀ = []
    · exfalso
      apply hroot
      apply String.ext
      rw [hl₀, hnil]
      rfl
    · rw [if_neg hnil]
      intro hcon
      obtain ⟨l₁, hl₁⟩ := (getLast?_eq_some_iff_append _ _).mp hcon
      have : HasSuffix (TrimSpace q.Name) ".." = true := by
        rw [hasSuffix_iff]
        refine ⟨l₁, ?_⟩
        rw [hl₀]
        show l₀ ++ ['.'] = l₁ ++ ['.', '.']
        rw [show l₀ = l₁ ++ ['.'] from hl₁]
        simp
      rw [hdots] at this
      exact Bool.false_ne_true this
  · have hstrip : stripTrailingDot (TrimSpace q.Name).data = (TrimSpace q.Name).data := by
      unfold stripTrailingDot
      rw [if_neg hlast]
    rw [hstrip]
    by_cases hnil : (TrimSpace q.Name).data = []
    · rw [if_pos hnil]
      intro hcon
      rw [hsplit, hnil, List.append_nil] at hcon
      have := getLast?_append_of_all_space pre post hpre hpost '.' hcon
      exact absurd this (by decide)
    · rw [if_neg hnil]
      exact hlast

theorem normalizedNameFromQuery_no_trailing_dot_witness :
    gatewayQuestion.Qtype ≠ typeNetBios ∧ TrimSpace gatewayQuestion.Name ≠ "." ∧
    HasSuffix (TrimSpace gatewayQuestion.Name) ".." = false ∧
    HasSuffix (normalizedNameFromQuery (scenarioEnv allowAll) gatewayQuestion) "." = false :=
  ⟨by decide, by decide, by decide,
    normalizedNameFromQuery_no_trailing_dot (scenarioEnv allowAll) gatewayQuestion
      (by decide) (by decide) (by decide)⟩

/-- C8, as stated, fails: the root name `.` normalizes to itself, and only one
of several trailing dots is stripped, so `host..` normalizes to `host.`. -/
theorem normalizedNameFromQuery_trailing_dot_counterexample :
    normalizedNameFromQuery (scenarioEnv allowAll) (Question.mk "." TypeA ClassINET) = "." ∧
    normalizedNameFromQuery (scenarioEnv allowAll) (Question.mk "host.." TypeA ClassINET)
      = "host." ∧
    ¬ (∀ (env : Env) (q : Question), q.Qtype ≠ typeNetBios →
        HasSuffix (normalizedNameFromQuery env q) "." = false) :=
  ⟨by decide, by decide, fun h =>
    absurd (h (scenarioEnv allowAll) (Question.mk "." TypeA ClassINET) (by decide))
      (by decide)⟩

/-! ## Unset relay addresses -/

theorem switchRecords_no_relay (env : Env) (config : Config) (q : Question)
    (h4 : config.RelayIPv4 = none) (h6 : config.RelayIPv6 = none)
    (hq : q.Qtype = TypeA ∨ q.Qtype = TypeAAAA ∨ q.Qtype = TypeANY) :
    switchRecords env config q = [] := by
  unfold switchRecords
  rcases hq with hq | hq | hq <;> simp [hq, h4, h6, TypeA, TypeAAAA, TypeANY]

/-- C3 at the failing input: with `RelayIPv4` and `RelayIPv6` both unset, an
admitted NetBIOS question (type 32) is still answered: the NetBIOS branch has
no check of `RelayIPv4` and appends a NIMLOC record whose locator is
`encodeNetBIOSLocator` of the `nil` address, so a reply is returned. The other
three query types behave as C3 says: a request of `A`, `AAAA` and `ANY`
questions only gets no reply. -/
theorem netbios_answered_without_relay :
    (∀ (decodeHostname decodeSuffix : String → String) (encode : IP → String)
        (typeString : Nat → String),
      (createDNSReplyFromRequest
          ⟨allowAll, decodeHostname, decodeSuffix, encode, typeString⟩
          scenarioWriter (queryOf [netBIOSQuestion]) (scenarioConfig none none)).1 =
        some { Id := 4242, Response := true, RecursionDesired := true,
               Answer := [RR.NIMLOC { Name := "EIEPFDFECACACACACACACACACACACACA",
                                      Rrtype := 32, Class := 1, Ttl := 60 }
                            (encode none)] }) ∧
    (∀ (env : Env) (rw : ResponseWriter) (request : Msg) (config : Config),
      config.RelayIPv4 = none → config.RelayIPv6 = none →
      (∀ q ∈ request.Question,
        q.Qtype = TypeA ∨ q.Qtype = TypeAAAA ∨ q.Qtype = TypeANY) →
      accumulatedAnswers env rw request config = [] ∧
      (createDNSReplyFromRequest env rw request config).1 = none) := by
  constructor
  · intro decodeHostname decodeSuffix encode typeString
    rfl
  · intro env rw request config h4 h6 hqs
    have hacc : accumulatedAnswers env rw request config = [] := by
      cases hip : toIP rw.RemoteAddr with
      | error err => unfold accumulatedAnswers; rw [hip]
      | ok peer =>
        rw [accumulatedAnswers_ok env rw request config peer hip, flatMap_questionRecords,
          List.flatMap_eq_nil_iff]
        intro q hq
        exact switchRecords_no_relay env config q h4 h6
          (hqs q (List.mem_of_mem_filter hq))
    refine ⟨hacc, ?_⟩
    have := createDNSReplyFromRequest_isSome_iff env rw request config
    rw [hacc] at this
    cases hres : (createDNSReplyFromRequest env rw request config).1 with
    | none => rfl
    | some reply =>
      rw [hres] at this
      exact absurd (this.mp rfl) (by simp)

/-- C10 at the failing input: an admitted `A` question with `RelayIPv4` unset
gets no record and one info message, and that message is the one of the
`AAAA` branch: it names the AAAA query type and the IPv6 relay, here with an
IPv6 relay configured. The same holds for every such question. -/
theorem a_question_without_relay_logs_aaaa_message :
    (∀ (decodeHostname decodeSuffix : String → String) (encode : IP → String)
        (typeString : Nat → String),
      createDNSReplyFromRequest
          ⟨allowAll, decodeHostname, decodeSuffix, encode, typeString⟩
          scenarioWriter (queryOf [gatewayQuestion]) (scenarioConfig none relay6) =
        (none, [LogEvent.Infof
          "ignored AAAA request because no IPv6 relay gateway is configured"])) ∧
    (∀ (env : Env) (rw : ResponseWriter) (config : Config) (peer : IP) (q : Question),
      admitted env config peer q = true → q.Qtype = TypeA → config.RelayIPv4 = none →
      questionRecords env config peer q = [] ∧
      questionEvents env rw config peer q =
        [LogEvent.Infof "ignored AAAA request because no IPv6 relay gateway is configured"]) := by
  constructor
  · intro decodeHostname decodeSuffix encode typeString
    rfl
  · intro env rw config peer q hadm hq h4
    constructor
    · simp [questionRecords, hadm, switchRecords, hq, h4]
    · unfold questionEvents
      rw [handleQuestion_A_unset env rw config peer _ q hadm hq h4]
      rfl

/-! ## NetBIOS questions without `RelayIPv4` and with malformed names -/

theorem questionRecords_NetBIOS (env : Env) (config : Config) (peer : IP) (q : Question)
    (hq : q.Qtype = typeNetBios) :
    questionRecords env config peer q =
      if env.shouldRespondToNameResolutionQuery config (env.decodeNetBIOSHostname q.Name) peer
          = true then
        [RR.NIMLOC { Name := q.Name, Rrtype := TypeNIMLOC, Class := ClassINET,
                     Ttl := ttlSeconds config }
          (env.encodeNetBIOSLocator config.RelayIPv4.To4)]
      else [] := by
  unfold questionRecords admitted normalizedNameFromQuery switchRecords
  simp [hq, TypeA, TypeAAAA, TypeANY, typeNetBios, TypeNIMLOC]

theorem accumulatedAnswers_split (env : Env) (rw : ResponseWriter) (request : Msg)
    (config : Config) (peer : IP) (pre post : List Question) (q : Question)
    (hip : toIP rw.RemoteAddr = Except.ok peer) (hqs : request.Question = pre ++ q :: post) :
    accumulatedAnswers env rw request config =
      pre.flatMap (questionRecords env config peer) ++ questionRecords env config peer q ++
        post.flatMap (questionRecords env config peer) := by
  rw [accumulatedAnswers_ok env rw request config peer hip, hqs]
  simp [List.flatMap_append, List.flatMap_cons]

theorem createDNSReplyFromRequest_log_split (env : Env) (rw : ResponseWriter) (request : Msg)
    (config : Config) (peer : IP) (pre post : List Question) (q : Question)
    (hip : toIP rw.RemoteAddr = Except.ok peer) (hqs : request.Question = pre ++ q :: post) :
    (createDNSReplyFromRequest env rw request config).2 =
      pre.flatMap (questionEvents env rw config peer) ++ questionEvents env rw config peer q ++
        post.flatMap (questionEvents env rw config peer) := by
  rw [createDNSReplyFromRequest_snd env rw request config peer hip, hqs]
  simp [List.flatMap_append, List.flatMap_cons]

/-- C11 at the failing input: with `RelayIPv4` unset (and `RelayIPv6` set), an
admitted NetBIOS question (type 32) is answered with a NIMLOC record whose
locator is `encodeNetBIOSLocator` of the `nil` address, and the reply is
returned. Every admitted NetBIOS question gets that record when `RelayIPv4` is
unset: the branch has no check of it. -/
theorem netbios_record_without_relay4 :
    (∀ (decodeHostname decodeSuffix : String → String) (encode : IP → String)
        (typeString : Nat → String),
      (createDNSReplyFromRequest
          ⟨allowAll, decodeHostname, decodeSuffix, encode, typeString⟩
          scenarioWriter (queryOf [netBIOSQuestion]) (scenarioConfig none relay6)).1 =
        some { Id := 4242, Response := true, RecursionDesired := true,
               Answer := [RR.NIMLOC { Name := "EIEPFDFECACACACACACACACACACACACA",
                                      Rrtype := 32, Class := 1, Ttl := 60 }
                            (encode none)] }) ∧
    (∀ (env : Env) (config : Config) (peer : IP) (q : Question),
      admitted env config peer q = true → q.Qtype = typeNetBios →
      config.RelayIPv4 = none →
      questionRecords env config peer q =
        [RR.NIMLOC { Name := q.Name, Rrtype := TypeNIMLOC, Class := ClassINET,
                     Ttl := ttlSeconds config }
          (env.encodeNetBIOSLocator none)]) := by
  constructor
  · intro decodeHostname decodeSuffix encode typeString
    rfl
  · intro env config peer q hadm hq h4
    have hadm2 : env.shouldRespondToNameResolutionQuery config
        (env.decodeNetBIOSHostname q.Name) peer = true := by
      have : normalizedNameFromQuery env q = env.decodeNetBIOSHostname q.Name := by
        unfold normalizedNameFromQuery; rw [if_pos hq]
      rw [← this]; exact hadm
    rw [questionRecords_NetBIOS env config peer q hq, if_pos hadm2, h4]
    rfl

/-- C12, as the code has it: a NetBIOS question (type 32) whose name is not a
valid first-level encoding meets no validity check. Its canonical name is
whatever `decodeNetBIOSHostname` returns for it; it contributes no record when
the policy rejects that name, and exactly one NIMLOC record when the policy
admits it and `RelayIPv4` is set; in each case the loop goes on with the
questions after it, whose records follow in the answer list. -/
theorem malformed_netbios_question_handled (env : Env) (rw : ResponseWriter)
    (config : Config) (peer : IP) (st : LoopState) (pre post : List Question) (q : Question)
    (hq : q.Qtype = typeNetBios) (_hbad : validFirstLevelEncoding q.Name = false) :
    normalizedNameFromQuery env q = env.decodeNetBIOSHostname q.Name ∧
    (env.shouldRespondToNameResolutionQuery config (env.decodeNetBIOSHostname q.Name) peer
        = false →
      questionRecords env config peer q = []) ∧
    (env.shouldRespondToNameResolutionQuery config (env.decodeNetBIOSHostname q.Name) peer
        = true →
      config.RelayIPv4 ≠ none →
      questionRecords env config peer q =
        [RR.NIMLOC { Name := q.Name, Rrtype := TypeNIMLOC, Class := ClassINET,
                     Ttl := ttlSeconds config }
          (env.encodeNetBIOSLocator config.RelayIPv4.To4)]) ∧
    processQuestions env rw config peer st (pre ++ q :: post) =
      processQuestions env rw config peer
        (handleQuestion env rw config peer (processQuestions env rw config peer st pre) q)
        post ∧
    (∀ request : Msg, toIP rw.RemoteAddr = Except.ok peer →
      request.Question = pre ++ q :: post →
      accumulatedAnswers env rw request config =
        pre.flatMap (questionRecords env config peer) ++ questionRecords env config peer q ++
          post.flatMap (questionRecords env config peer)) := by
  refine ⟨?_, ?_, ?_, ?_, ?_⟩
  · unfold normalizedNameFromQuery; rw [if_pos hq]
  · intro hrej
    rw [questionRecords_NetBIOS env config peer q hq, hrej]
    rfl
  · intro hadm _
    rw [questionRecords_NetBIOS env config peer q hq, if_pos hadm]
  · rw [processQuestions_append, processQuestions_cons]
  · intro request hip hqs
    exact accumulatedAnswers_split env rw request config peer pre post q hip hqs

theorem malformed_netbios_question_handled_witness :
    malformedNetBIOSQuestion.Qtype = typeNetBios ∧
    validFirstLevelEncoding malformedNetBIOSQuestion.Name = false ∧
    (scenarioConfig relay4 none).RelayIPv4 ≠ none ∧
    questionRecords (scenarioEnv (allowOnly "gateway.internal")) (scenarioConfig relay4 none)
      scenarioPeer malformedNetBIOSQuestion = [] ∧
    questionRecords (scenarioEnv allowAll) (scenarioConfig relay4 none)
      scenarioPeer malformedNetBIOSQuestion =
        [RR.NIMLOC { Name := "not-encoded.", Rrtype := 32, Class := 1, Ttl := 60 }
          "0a000202"] :=
  ⟨by decide, by decide, by decide,
    (malformed_netbios_question_handled (scenarioEnv (allowOnly "gateway.internal"))
      scenarioWriter (scenarioConfig relay4 none) scenarioPeer ({}, []) [] []
      malformedNetBIOSQuestion (by decide) (by decide)).2.1 (by decide),
    (malformed_netbios_question_handled (scenarioEnv allowAll)
      scenarioWriter (scenarioConfig relay4 none) scenarioPeer ({}, []) [] []
      malformedNetBIOSQuestion (by decide) (by decide)).2.2.1 (by decide) (by decide)⟩

/-- C12, as stated, fails: under the always-allow policy, with `RelayIPv4` set,
the NetBIOS question named `not-encoded.`, which is no first-level encoding,
is not skipped. Whatever the codec helpers return, one NIMLOC record is
appended for it and the reply is sent. -/
theorem malformed_netbios_name_counterexample :
    validFirstLevelEncoding malformedNetBIOSQuestion.Name = false ∧
    (∀ (decodeHostname decodeSuffix : String → String) (encode : IP → String)
        (typeString : Nat → String),
      (createDNSReplyFromRequest
          ⟨allowAll, decodeHostname, decodeSuffix, encode, typeString⟩
          scenarioWriter (queryOf [malformedNetBIOSQuestion]) (scenarioConfig relay4 none)).1 =
        some { Id := 4242, Response := true, RecursionDesired := true,
               Answer := [RR.NIMLOC { Name := "not-encoded.", Rrtype := 32, Class := 1,
                                      Ttl := 60 }
                            (encode (some [10, 0, 2, 2]))] }) ∧
    ¬ (∀ (env : Env) (config : Config) (peer : IP) (q : Question),
        q.Qtype = typeNetBios → validFirstLevelEncoding q.Name = false →
        questionRecords env config peer q = []) :=
  ⟨by decide, fun _ _ _ _ => rfl, fun h =>
    absurd (h (scenarioEnv allowAll) (scenarioConfig relay4 none) scenarioPeer
      malformedNetBIOSQuestion (by decide) (by decide)) (by decide)⟩

/-! ## Unrecognized peer addresses and unhandled query types -/

/-- C13: `toIP` fails exactly on an address that is neither a `*net.TCPAddr`
nor a `*net.UDPAddr`, and returns the IP of a TCP or UDP address. When the
responder's remote address is of such an unrecognized shape,
`createDNSReplyFromRequest` makes one logger call, `Errorf` with the error's
message, accumulates no answer record whatever the questions are, and returns
`nil`. -/
theorem toIP_error_iff_unrecognized :
    (∀ addr : Addr, (∃ err, toIP addr = Except.error err) ↔
      ∃ typeName, addr = Addr.other typeName) ∧
    (∀ (ip : IP) (port : Nat) (zone : String),
      toIP (Addr.TCPAddr ip port zone) = Except.ok ip ∧
      toIP (Addr.UDPAddr ip port zone) = Except.ok ip) ∧
    (∀ (env : Env) (rw : ResponseWriter) (request : Msg) (config : Config)
        (typeName : String), rw.RemoteAddr = Addr.other typeName →
      toIP rw.RemoteAddr = Except.error ("cannot extract IP from " ++ typeName) ∧
      createDNSReplyFromRequest env rw request config =
        (none, [LogEvent.Errorf ("cannot extract IP from " ++ typeName)]) ∧
      accumulatedAnswers env rw request config = []) ∧
    createDNSReplyFromRequest (scenarioEnv allowAll) unixWriter
        (queryOf [gatewayQuestion, anyQuestion]) (scenarioConfig relay4 relay6) =
      (none, [LogEvent.Errorf "cannot extract IP from *net.UnixAddr"]) := by
  refine ⟨?_, fun ip port zone => ⟨rfl, rfl⟩, ?_, rfl⟩
  · intro addr
    cases addr with
    | TCPAddr ip port zone => simp [toIP]
    | UDPAddr ip port zone => simp [toIP]
    | other typeName => simp [toIP]
  · intro env rw request config typeName haddr
    have hip : toIP rw.RemoteAddr = Except.error ("cannot extract IP from " ++ typeName) := by
      rw [haddr]; rfl
    refine ⟨hip, createDNSReplyFromRequest_error env rw request config _ hip, ?_⟩
    unfold accumulatedAnswers
    rw [hip]

theorem questionRecords_unhandled (env : Env) (config : Config) (peer : IP) (q : Question)
    (hA : q.Qtype ≠ TypeA) (hAAAA : q.Qtype ≠ TypeAAAA) (hANY : q.Qtype ≠ TypeANY)
    (hNB : q.Qtype ≠ typeNetBios) : questionRecords env config peer q = [] := by
  unfold questionRecords switchRecords
  simp [hA, hAAAA, hANY, hNB]

/-- C14: an admitted question whose type is none of A, AAAA, ANY and 32 is
unhandled: it contributes no record, the one logger call of its iteration is
the `Debugf` message with the type, the name and the two addresses (so there
is no `Query` event), the reply under construction is untouched and the loop
goes on with the next question. A request whose questions all have such a
type gets no reply. -/
theorem unhandled_question_type (env : Env) (rw : ResponseWriter) (config : Config)
    (peer : IP) (st : LoopState) (pre post : List Question) (q : Question)
    (hadm : env.shouldRespondToNameResolutionQuery config (normalizedNameFromQuery env q) peer
      = true)
    (hA : q.Qtype ≠ TypeA) (hAAAA : q.Qtype ≠ TypeAAAA) (hANY : q.Qtype ≠ TypeANY)
    (hNB : q.Qtype ≠ typeNetBios) :
    questionRecords env config peer q = [] ∧
    questionEvents env rw config peer q =
      [LogEvent.Debugf "%s query for name %s from %s on interface %s is unhandled"
        [env.typeString q.Qtype, normalizedNameFromQuery env q, rw.RemoteAddrString,
          rw.LocalAddrString]] ∧
    handleQuestion env rw config peer st q =
      (st.1, st.2 ++
        [LogEvent.Debugf "%s query for name %s from %s on interface %s is unhandled"
          [env.typeString q.Qtype, normalizedNameFromQuery env q, rw.RemoteAddrString,
            rw.LocalAddrString]]) ∧
    processQuestions env rw config peer st (pre ++ q :: post) =
      processQuestions env rw config peer
        ((processQuestions env rw config peer st pre).1,
          (processQuestions env rw config peer st pre).2 ++
            [LogEvent.Debugf "%s query for name %s from %s on interface %s is unhandled"
              [env.typeString q.Qtype, normalizedNameFromQuery env q, rw.RemoteAddrString,
                rw.LocalAddrString]])
        post ∧
    (∀ request : Msg,
      (∀ q2 ∈ request.Question, q2.Qtype ≠ TypeA ∧ q2.Qtype ≠ TypeAAAA ∧
        q2.Qtype ≠ TypeANY ∧ q2.Qtype ≠ typeNetBios) →
      accumulatedAnswers env rw request config = [] ∧
      (createDNSReplyFromRequest env rw request config).1 = none) := by
  have hstep := handleQuestion_unhandled env rw config peer
  refine ⟨questionRecords_unhandled env config peer q hA hAAAA hANY hNB, ?_,
    hstep st q hadm hA hAAAA hANY hNB, ?_, ?_⟩
  · unfold questionEvents
    rw [hstep _ q hadm hA hAAAA hANY hNB]
    rfl
  · rw [processQuestions_append, processQuestions_cons, hstep _ q hadm hA hAAAA hANY hNB]
  · intro request hall
    have hacc : accumulatedAnswers env rw request config = [] := by
      cases hip : toIP rw.RemoteAddr with
      | error err => unfold accumulatedAnswers; rw [hip]
      | ok peer2 =>
        rw [accumulatedAnswers_ok env rw request config peer2 hip, List.flatMap_eq_nil_iff]
        intro q2 hq2
        obtain ⟨h1, h2, h3, h4⟩ := hall q2 hq2
        exact questionRecords_unhandled env config peer2 q2 h1 h2 h3 h4
    refine ⟨hacc, ?_⟩
    have hiff := createDNSReplyFromRequest_isSome_iff env rw request config
    rw [hacc] at hiff
    cases hres : (createDNSReplyFromRequest env rw request config).1 with
    | none => rfl
    | some reply =>
      rw [hres] at hiff
      exact absurd (hiff.mp rfl) (by simp)

theorem unhandled_question_type_witness :
    (scenarioEnv allowAll).shouldRespondToNameResolutionQuery (scenarioConfig relay4 relay6)
      (normalizedNameFromQuery (scenarioEnv allowAll) txtQuestion) scenarioPeer = true ∧
    txtQuestion.Qtype ≠ TypeA ∧ txtQuestion.Qtype ≠ TypeAAAA ∧ txtQuestion.Qtype ≠ TypeANY ∧
    txtQuestion.Qtype ≠ typeNetBios ∧
    questionRecords (scenarioEnv allowAll) (scenarioConfig relay4 relay6) scenarioPeer
      txtQuestion = [] ∧
    questionEvents (scenarioEnv allowAll) scenarioWriter (scenarioConfig relay4 relay6)
      scenarioPeer txtQuestion =
      [LogEvent.Debugf "%s query for name %s from %s on interface %s is unhandled"
        ["TXT", "gateway.internal", "192.0.2.5:5353", "10.0.2.2:53"]] :=
  ⟨rfl, by decide, by decide, by decide, by decide,
    (unhandled_question_type (scenarioEnv allowAll) scenarioWriter
      (scenarioConfig relay4 relay6) scenarioPeer ({}, []) [] [gatewayQuestion] txtQuestion
      rfl (by decide) (by decide) (by decide) (by decide)).1,
    (unhandled_question_type (scenarioEnv allowAll) scenarioWriter
      (scenarioConfig relay4 relay6) scenarioPeer ({}, []) [] [gatewayQuestion] txtQuestion
      rfl (by decide) (by decide) (by decide) (by decide)).2.1⟩

/-! ## Reply dispatch -/

/-- C15: the handler of `DNSHandler` makes exactly one state-changing call on
the responder. When `createDNSReplyFromRequest` returns `nil` the call is
`Close` and nothing is written; when it returns a reply the call is `WriteMsg`
with that reply and the responder is not closed. What `WriteMsg` returns does
not change the calls: an error only adds one `Errorf` message to the trace,
and without an error nothing is added. -/
theorem DNSHandler_close_or_write (env : Env) (config : Config)
    (writeMsg : Msg → Option GoError) (rw : ResponseWriter) (request : Msg) :
    ((createDNSReplyFromRequest env rw request config).1 = none →
      DNSHandler env config writeMsg rw request =
        ([ResponderCall.Close], (createDNSReplyFromRequest env rw request config).2)) ∧
    (∀ reply, (createDNSReplyFromRequest env rw request config).1 = some reply →
      (DNSHandler env config writeMsg rw request).1 = [ResponderCall.WriteMsg reply] ∧
      (writeMsg reply = none →
        (DNSHandler env config writeMsg rw request).2 =
          (createDNSReplyFromRequest env rw request config).2) ∧
      (∀ err, writeMsg reply = some err →
        (DNSHandler env config writeMsg rw request).2 =
          (createDNSReplyFromRequest env rw request config).2 ++
            [LogEvent.Errorf ("writing response: " ++ err.Error)])) ∧
    (DNSHandler env config writeMsg rw request).1.length = 1 ∧
    (∀ writeMsg2 : Msg → Option GoError,
      (DNSHandler env config writeMsg2 rw request).1 =
        (DNSHandler env config writeMsg rw request).1) ∧
    ((DNSHandler env config writeMsg rw request).1 = [ResponderCall.Close] ↔
      (createDNSReplyFromRequest env rw request config).1 = none) := by
  have hcalls : ∀ w : Msg → Option GoError, (DNSHandler env config w rw request).1 =
      match (createDNSReplyFromRequest env rw request config).1 with
      | none => [ResponderCall.Close]
      | some reply => [ResponderCall.WriteMsg reply] := by
    intro w
    unfold DNSHandler
    cases hres : (createDNSReplyFromRequest env rw request config).1 with
    | none => simp only [hres]
    | some reply =>
      simp only [hres]
      cases w reply <;> rfl
  refine ⟨?_, ?_, ?_, ?_, ?_⟩
  · intro hnone
    unfold DNSHandler
    simp only [hnone]
  · intro reply hsome
    refine ⟨?_, ?_, ?_⟩
    · rw [hcalls, hsome]
    · intro hw
      unfold DNSHandler
      simp only [hsome, hw]
    · intro err hw
      unfold DNSHandler
      simp only [hsome, hw]
  · rw [hcalls]
    cases (createDNSReplyFromRequest env rw request config).1 <;> rfl
  · intro w2
    rw [hcalls, hcalls]
  · rw [hcalls]
    cases (createDNSReplyFromRequest env rw request config).1 <;> simp

/-- C16: the handler of `UDPConnDNSHandler` sends nothing when
`createDNSReplyFromRequest` returns `nil`. For a reply it packs it: when
packing fails nothing is sent and one `Errorf` message is logged; when packing
succeeds it makes exactly one `WriteTo` call, with the packed bytes and the
responder's remote address, and a failure of that call only adds one `Errorf`
message. The handler has no result besides these calls. -/
theorem UDPConnDNSHandler_sends_packed_reply (env : Env) (config : Config)
    (pack : Msg → Except GoError (List Nat)) (writeTo : List Nat → Addr → Option GoError)
    (rw : ResponseWriter) (request : Msg) :
    ((createDNSReplyFromRequest env rw request config).1 = none →
      UDPConnDNSHandler env config pack writeTo rw request =
        ([], (createDNSReplyFromRequest env rw request config).2)) ∧
    (∀ reply, (createDNSReplyFromRequest env rw request config).1 = some reply →
      (∀ err, pack reply = Except.error err →
        UDPConnDNSHandler env config pack writeTo rw request =
          ([], (createDNSReplyFromRequest env rw request config).2 ++
            [LogEvent.Errorf ("pack message: " ++ err.Error)])) ∧
      (∀ buf, pack reply = Except.ok buf →
        (UDPConnDNSHandler env config pack writeTo rw request).1 =
          [ConnCall.WriteTo buf rw.RemoteAddr] ∧
        (writeTo buf rw.RemoteAddr = none →
          (UDPConnDNSHandler env config pack writeTo rw request).2 =
            (createDNSReplyFromRequest env rw request config).2) ∧
        (∀ err, writeTo buf rw.RemoteAddr = some err →
          (UDPConnDNSHandler env config pack writeTo rw request).2 =
            (createDNSReplyFromRequest env rw request config).2 ++
              [LogEvent.Errorf ("write dns response: " ++ err.Error)]))) ∧
    (UDPConnDNSHandler env config pack writeTo rw request).1.length ≤ 1 := by
  refine ⟨?_, ?_, ?_⟩
  · intro hnone
    unfold UDPConnDNSHandler
    simp only [hnone]
  · intro reply hsome
    refine ⟨?_, ?_⟩
    · intro err hp
      unfold UDPConnDNSHandler
      simp only [hsome, hp]
    · intro buf hp
      refine ⟨?_, ?_, ?_⟩
      · unfold UDPConnDNSHandler
        simp only [hsome, hp]
        cases writeTo buf rw.RemoteAddr <;> rfl
      · intro hw
        unfold UDPConnDNSHandler
        simp only [hsome, hp, hw]
      · intro err hw
        unfold UDPConnDNSHandler
        simp only [hsome, hp, hw]
  · unfold UDPConnDNSHandler
    cases hres : (createDNSReplyFromRequest env rw request config).1 with
    | none => simp [hres]
    | some reply =>
      simp only [hres]
      cases hp : pack reply with
      | error err => simp
      | ok buf =>
        simp only []
        cases writeTo buf rw.RemoteAddr <;> simp

/-- C17: a transport runner returns an error exactly when its serve call
returned one, and then it is that error wrapped by
`fmt.Errorf("activate and serve: %w", err)`: it unwraps to the serve error and
prints the prefix followed by its message. When the serve call returns `nil`
the runner returns `nil`. This holds for `runDNSServerWithContext` and for
`RunDNSHandlerOnUDPConnection`. -/
theorem runner_reports_serve_error :
    (∀ r : Option GoError, (runDNSServerWithContext r).isSome = r.isSome) ∧
    (∀ err : GoError, ∃ e, runDNSServerWithContext (some err) = some e ∧
      e.Unwrap = some err ∧ e.Error = "activate and serve: " ++ err.Error) ∧
    runDNSServerWithContext none = none ∧
    (∀ r : Option GoError, (RunDNSHandlerOnUDPConnection r).isSome = r.isSome) ∧
    (∀ err : GoError, ∃ e, RunDNSHandlerOnUDPConnection (some err) = some e ∧
      e.Unwrap = some err ∧ e.Error = "activate and serve: " ++ err.Error) ∧
    RunDNSHandlerOnUDPConnection none = none := by
  refine ⟨?_, ?_, rfl, ?_, ?_, rfl⟩
  · intro r; cases r <;> rfl
  · intro err; exact ⟨_, rfl, rfl, rfl⟩
  · intro r; cases r <;> rfl
  · intro err; exact ⟨_, rfl, rfl, rfl⟩

/-! ## Every record of a reply, every event of a question -/

theorem mem_switchRecords (env : Env) (config : Config) (q : Question) (rr : RR)
    (h : rr ∈ switchRecords env config q) :
    rr.Hdr.Name = q.Name ∧ rr.Hdr.Class = ClassINET ∧ rr.Hdr.Ttl = ttlSeconds config ∧
    (∀ hdr ip, rr = RR.A hdr ip → ip = config.RelayIPv4 ∧ config.RelayIPv4 ≠ none) ∧
    (∀ hdr ip, rr = RR.AAAA hdr ip → ip = config.RelayIPv6 ∧ config.RelayIPv6 ≠ none) := by
  unfold switchRecords at h
  by_cases hA : q.Qtype = TypeA
  · rw [if_pos hA] at h
    by_cases h4 : config.RelayIPv4 = none
    · rw [if_pos h4] at h; exact absurd h (List.not_mem_nil _)
    · rw [if_neg h4, List.mem_singleton] at h
      subst h
      refine ⟨rfl, rfl, rfl, ?_, ?_⟩
      · intro hdr ip he
        injection he with _ hip
        exact ⟨hip.symm, h4⟩
      · intro hdr ip he; exact absurd he (by simp)
  · rw [if_neg hA] at h
    by_cases hAAAA : q.Qtype = TypeAAAA
    · rw [if_pos hAAAA] at h
      by_cases h6 : config.RelayIPv6 = none
      · rw [if_pos h6] at h; exact absurd h (List.not_mem_nil _)
      · rw [if_neg h6, List.mem_singleton] at h
        subst h
        refine ⟨rfl, rfl, rfl, ?_, ?_⟩
        · intro hdr ip he; exact absurd he (by simp)
        · intro hdr ip he
          injection he with _ hip
          exact ⟨hip.symm, h6⟩
    · rw [if_neg hAAAA] at h
      by_cases hANY : q.Qtype = TypeANY
      · rw [if_pos hANY, List.mem_append] at h
        rcases h with h | h
        · by_cases h4 : config.RelayIPv4 = none
          · rw [if_neg (not_not.mpr h4)] at h; exact absurd h (List.not_mem_nil _)
          · rw [if_pos h4, List.mem_singleton] at h
            subst h
            refine ⟨rfl, rfl, rfl, ?_, ?_⟩
            · intro hdr ip he
              injection he with _ hip
              exact ⟨hip.symm, h4⟩
            · intro hdr ip he; exact absurd he (by simp)
        · by_cases h6 : config.RelayIPv6 = none
          · rw [if_neg (not_not.mpr h6)] at h; exact absurd h (List.not_mem_nil _)
          · rw [if_pos h6, List.mem_singleton] at h
            subst h
            refine ⟨rfl, rfl, rfl, ?_, ?_⟩
            · intro hdr ip he; exact absurd he (by simp)
            · intro hdr ip he
              injection he with _ hip
              exact ⟨hip.symm, h6⟩
      · rw [if_neg hANY] at h
        by_cases hNB : q.Qtype = typeNetBios
        · rw [if_pos hNB, List.mem_singleton] at h
          subst h
          refine ⟨rfl, rfl, rfl, ?_, ?_⟩
          · intro hdr ip he; exact absurd he (by simp)
          · intro hdr ip he; exact absurd he (by simp)
        · rw [if_neg hNB] at h; exact absurd h (List.not_mem_nil _)

theorem switchRecords_length_le (env : Env) (config : Config) (q : Question) :
    (switchRecords env config q).length ≤ 2 := by
  unfold switchRecords
  split
  · split <;> simp
  · split
    · split <;> simp
    · split
      · split <;> split <;> simp
      · split <;> simp

theorem questionRecords_length_le (env : Env) (config : Config) (peer : IP) (q : Question) :
    (questionRecords env config peer q).length ≤ 2 := by
  unfold questionRecords
  split
  · exact switchRecords_length_le env config q
  · simp

/-- C19, as the code has it: every record of a reply has, character for
character, the name of one of the request's questions, class INET, and the TTL
`uint32(config.TTL.Seconds())`, which is the configured TTL truncated to whole
seconds when that TTL lies from zero to below `2^23` seconds. Every `A` record
carries `RelayIPv4`, which is then set; every `AAAA` record carries
`RelayIPv6`, which is then set; a question contributes at most two records. -/
theorem reply_records_invariant (env : Env) (rw : ResponseWriter) (request : Msg)
    (config : Config) (reply : Msg)
    (h : (createDNSReplyFromRequest env rw request config).1 = some reply) :
    (∀ rr ∈ reply.Answer,
      (∃ q ∈ request.Question, rr.Hdr.Name = q.Name) ∧
      rr.Hdr.Class = ClassINET ∧
      rr.Hdr.Ttl = ttlSeconds config ∧
      (∀ d : Nat, d < 2 ^ 23 * Second → config.TTL = (d : Int) → rr.Hdr.Ttl = d / Second) ∧
      (∀ hdr ip, rr = RR.A hdr ip → ip = config.RelayIPv4 ∧ config.RelayIPv4 ≠ none) ∧
      (∀ hdr ip, rr = RR.AAAA hdr ip → ip = config.RelayIPv6 ∧ config.RelayIPv6 ≠ none)) ∧
    (∀ (peer : IP) (q : Question), (questionRecords env config peer q).length ≤ 2) ∧
    (∀ peer, toIP rw.RemoteAddr = Except.ok peer →
      reply.Answer = request.Question.flatMap (questionRecords env config peer)) := by
  have hans := createDNSReplyFromRequest_some_answer env rw request config reply h
  cases hip : toIP rw.RemoteAddr with
  | error err =>
    rw [createDNSReplyFromRequest_error env rw request config err hip] at h
    exact absurd h (by simp)
  | ok peer =>
    have hflat : reply.Answer = request.Question.flatMap (questionRecords env config peer) := by
      rw [hans, accumulatedAnswers_ok env rw request config peer hip]
    refine ⟨?_, fun p q => questionRecords_length_le env config p q, ?_⟩
    · intro rr hrr
      rw [hflat, List.mem_flatMap] at hrr
      obtain ⟨q, hq, hmem⟩ := hrr
      have hsw : rr ∈ switchRecords env config q := by
        unfold questionRecords at hmem
        split at hmem
        · exact hmem
        · exact absurd hmem (List.not_mem_nil _)
      obtain ⟨h1, h2, h3, h4, h5⟩ := mem_switchRecords env config q rr hsw
      refine ⟨⟨q, hq, h1⟩, h2, h3, ?_, h4, h5⟩
      intro d hd hTTL
      rw [h3]
      exact ttlSeconds_floor config d hd hTTL
    · intro peer2 hp2
      have : peer2 = peer := (Except.ok.inj hp2).symm
      subst this
      exact hflat

theorem reply_records_invariant_witness :
    ∃ reply, (createDNSReplyFromRequest (scenarioEnv allowAll) scenarioWriter
        (queryOf [anyQuestion, netBIOSQuestion]) (scenarioConfig relay4 relay6)).1 = some reply ∧
      ∀ rr ∈ reply.Answer, rr.Hdr.Class = ClassINET ∧ rr.Hdr.Ttl = 60 :=
  ⟨_, rfl, fun rr hrr =>
    ⟨((reply_records_invariant (scenarioEnv allowAll) scenarioWriter
        (queryOf [anyQuestion, netBIOSQuestion]) (scenarioConfig relay4 relay6) _ rfl).1
        rr hrr).2.1,
     ((reply_records_invariant (scenarioEnv allowAll) scenarioWriter
        (queryOf [anyQuestion, netBIOSQuestion]) (scenarioConfig relay4 relay6) _ rfl).1
        rr hrr).2.2.1⟩⟩

/-- C19, as stated, fails on the TTL: the conversion goes through `float64`.
For a configured TTL of 16777216.999999999 s, whose truncation to whole
seconds is 16777216, the sum `float64(sec) + float64(nsec)/1e9` rounds to
16777217, and the record carries TTL 16777217. -/
theorem ttl_not_truncated_counterexample :
    0 ≤ longTTLConfig.TTL ∧
    longTTLConfig.TTL / (Second : Int) = 16777216 ∧
    Duration.Seconds longTTLConfig.TTL = ⟨false, ⟨4503599895805952, 268435456⟩⟩ ∧
    ttlSeconds longTTLConfig = 16777217 ∧
    (∀ (decodeHostname decodeSuffix : String → String) (encode : IP → String)
        (typeString : Nat → String),
      (createDNSReplyFromRequest
          ⟨allowAll, decodeHostname, decodeSuffix, encode, typeString⟩
          scenarioWriter (queryOf [gatewayQuestion]) longTTLConfig).1 =
        some { Id := 4242, Response := true, RecursionDesired := true,
               Question := [gatewayQuestion],
               Answer := [RR.A { Name := "gateway.internal.", Rrtype := 1, Class := 1,
                                 Ttl := 16777217 } (some [10, 0, 2, 2])] }) :=
  ⟨by decide, by decide, by decide, by decide, fun _ _ _ _ => rfl⟩

/-! ## Accepted events and appended records -/

/-- The one logger call of an iteration is the `Query` event exactly when the
question is admitted and its branch does not end in `continue`: an `A`
question with `RelayIPv4` set, an `AAAA` question with `RelayIPv6` set, any
`ANY` question, any NetBIOS question. -/
theorem questionEvents_query_iff (env : Env) (rw : ResponseWriter) (config : Config)
    (peer : IP) (q : Question) :
    (questionEvents env rw config peer q).length = 1 ∧
    (questionEvents env rw config peer q =
        [LogEvent.Query (normalizedNameFromQuery env q) (queryType env q) peer] ↔
      admitted env config peer q = true ∧
        ((q.Qtype = TypeA ∧ config.RelayIPv4 ≠ none) ∨
         (q.Qtype = TypeAAAA ∧ config.RelayIPv6 ≠ none) ∨
         q.Qtype = TypeANY ∨ q.Qtype = typeNetBios)) := by
  unfold questionEvents admitted
  cases hp : env.shouldRespondToNameResolutionQuery config (normalizedNameFromQuery env q) peer
  · rw [handleQuestion_rejected _ _ _ _ _ _ hp]
    simp
  · by_cases hA : q.Qtype = TypeA
    · by_cases h4 : config.RelayIPv4 = none
      · rw [handleQuestion_A_unset _ _ _ _ _ _ hp hA h4]
        simp [hA, h4, TypeA, TypeAAAA, TypeANY, typeNetBios, TypeNIMLOC]
      · rw [handleQuestion_A _ _ _ _ _ _ hp hA h4]
        simp [hA, h4]
    · by_cases hAAAA : q.Qtype = TypeAAAA
      · by_cases h6 : config.RelayIPv6 = none
        · rw [handleQuestion_AAAA_unset _ _ _ _ _ _ hp hAAAA h6]
          simp [hAAAA, h6, TypeA, TypeAAAA, TypeANY, typeNetBios, TypeNIMLOC]
        · rw [handleQuestion_AAAA _ _ _ _ _ _ hp hAAAA h6]
          simp [hAAAA, h6]
      · by_cases hANY : q.Qtype = TypeANY
        · rw [handleQuestion_ANY _ _ _ _ _ _ hp hANY]
          simp [hANY]
        · by_cases hNB : q.Qtype = typeNetBios
          · rw [handleQuestion_NetBIOS _ _ _ _ _ _ hp hNB]
            simp [hNB]
          · rw [handleQuestion_unhandled _ _ _ _ _ _ hp hA hAAAA hANY hNB]
            simp [hA, hAAAA, hANY, hNB]

theorem questionRecords_ne_nil_iff (env : Env) (config : Config) (peer : IP) (q : Question) :
    questionRecords env config peer q ≠ [] ↔
      admitted env config peer q = true ∧
        ((q.Qtype = TypeA ∧ config.RelayIPv4 ≠ none) ∨
         (q.Qtype = TypeAAAA ∧ config.RelayIPv6 ≠ none) ∨
         (q.Qtype = TypeANY ∧ (config.RelayIPv4 ≠ none ∨ config.RelayIPv6 ≠ none)) ∨
         q.Qtype = typeNetBios) := by
  unfold questionRecords
  cases hp : admitted env config peer q
  · simp
  · unfold switchRecords
    by_cases hA : q.Qtype = TypeA
    · by_cases h4 : config.RelayIPv4 = none <;>
        simp [hA, h4, TypeA, TypeAAAA, TypeANY, typeNetBios, TypeNIMLOC]
    · by_cases hAAAA : q.Qtype = TypeAAAA
      · by_cases h6 : config.RelayIPv6 = none <;>
          simp [hAAAA, h6, TypeA, TypeAAAA, TypeANY, typeNetBios, TypeNIMLOC]
      · by_cases hANY : q.Qtype = TypeANY
        · by_cases h4 : config.RelayIPv4 = none <;> by_cases h6 : config.RelayIPv6 = none <;>
            simp [hANY, h4, h6, TypeA, TypeAAAA, TypeANY, typeNetBios, TypeNIMLOC]
        · by_cases hNB : q.Qtype = typeNetBios
          · simp [hNB, TypeA, TypeAAAA, TypeANY, typeNetBios, TypeNIMLOC]
          · simp [hA, hAAAA, hANY, hNB]

/-- C20 at the failing input: an admitted `ANY` question with `RelayIPv4` and
`RelayIPv6` both unset gets no record, and still the `Query` event is logged
for it, while no reply is sent. Each question causes exactly one logger call,
and a question that got a record always has the `Query` event; the `Query`
event without a record occurs exactly for an admitted `ANY` question with both
relay addresses unset. -/
theorem any_question_accepted_without_answer :
    (∀ (decodeHostname decodeSuffix : String → String) (encode : IP → String)
        (typeString : Nat → String),
      createDNSReplyFromRequest
          ⟨allowAll, decodeHostname, decodeSuffix, encode, typeString⟩
          scenarioWriter (queryOf [anyQuestion]) (scenarioConfig none none) =
        (none, [LogEvent.Query "gateway.internal" (typeString 255) (some [192, 0, 2, 5])])) ∧
    (∀ (env : Env) (rw : ResponseWriter) (config : Config) (peer : IP) (q : Question),
      (questionEvents env rw config peer q).length = 1) ∧
    (∀ (env : Env) (rw : ResponseWriter) (config : Config) (peer : IP) (q : Question),
      questionRecords env config peer q ≠ [] →
      questionEvents env rw config peer q =
        [LogEvent.Query (normalizedNameFromQuery env q) (queryType env q) peer]) ∧
    (∀ (env : Env) (rw : ResponseWriter) (config : Config) (peer : IP) (q : Question),
      (questionEvents env rw config peer q =
          [LogEvent.Query (normalizedNameFromQuery env q) (queryType env q) peer] ∧
        questionRecords env config peer q = []) ↔
      (admitted env config peer q = true ∧ q.Qtype = TypeANY ∧
        config.RelayIPv4 = none ∧ config.RelayIPv6 = none)) := by
  refine ⟨fun _ _ _ _ => rfl, ?_, ?_, ?_⟩
  · intro env rw config peer q
    exact (questionEvents_query_iff env rw config peer q).1
  · intro env rw config peer q hne
    rw [(questionEvents_query_iff env rw config peer q).2]
    obtain ⟨hadm, hcase⟩ := (questionRecords_ne_nil_iff env config peer q).mp hne
    refine ⟨hadm, ?_⟩
    rcases hcase with h | h | h | h
    · exact Or.inl h
    · exact Or.inr (Or.inl h)
    · exact Or.inr (Or.inr (Or.inl h.1))
    · exact Or.inr (Or.inr (Or.inr h))
  · intro env rw config peer q
    rw [(questionEvents_query_iff env rw config peer q).2]
    have hrec := questionRecords_ne_nil_iff env config peer q
    constructor
    · rintro ⟨⟨hadm, hcase⟩, hnil⟩
      have hno : ¬ (admitted env config peer q = true ∧
        ((q.Qtype = TypeA ∧ config.RelayIPv4 ≠ none) ∨
         (q.Qtype = TypeAAAA ∧ config.RelayIPv6 ≠ none) ∨
         (q.Qtype = TypeANY ∧ (config.RelayIPv4 ≠ none ∨ config.RelayIPv6 ≠ none)) ∨
         q.Qtype = typeNetBios)) := fun hc => (hrec.mpr hc) hnil
      rcases hcase with h | h | h | h
      · exact absurd ⟨hadm, Or.inl h⟩ hno
      · exact absurd ⟨hadm, Or.inr (Or.inl h)⟩ hno
      · refine ⟨hadm, h, ?_, ?_⟩
        · by_contra h4
          exact hno ⟨hadm, Or.inr (Or.inr (Or.inl ⟨h, Or.inl h4⟩))⟩
        · by_contra h6
          exact hno ⟨hadm, Or.inr (Or.inr (Or.inl ⟨h, Or.inr h6⟩))⟩
      · exact absurd ⟨hadm, Or.inr (Or.inr (Or.inr h))⟩ hno
    · rintro ⟨hadm, hANY, h4, h6⟩
      refine ⟨⟨hadm, Or.inr (Or.inr (Or.inl hANY))⟩, ?_⟩
      by_contra hne
      obtain ⟨-, hcase⟩ := hrec.mp hne
      rcases hcase with h | h | h | h
      · rw [hANY] at h; exact absurd h.1 (by decide)
      · rw [hANY] at h; exact absurd h.1 (by decide)
      · rcases h.2 with h' | h'
        · exact h' h4
        · exact h' h6
      · rw [hANY] at h; exact absurd h (by decide)

/-! ## Configured TTLs the conversion does not render in whole seconds -/

/-- C4, as stated, fails on the TTL: the two records of the `ANY` reply carry
`uint32(config.TTL.Seconds())`, computed through `float64`. For a configured
TTL of 16777216.999999999 s both records carry 16777217, one more than its
whole seconds; this is no rounding to the nearest second either, as 1.6 s
gives 1; and for a configured TTL of `2^32` s both records carry 0. -/
theorem any_question_ttl_counterexample :
    (ttlConfig 16777216999999999).TTL / (Second : Int) = 16777216 ∧
    (∀ (decodeHostname decodeSuffix : String → String) (encode : IP → String)
        (typeString : Nat → String),
      (createDNSReplyFromRequest
          ⟨allowAll, decodeHostname, decodeSuffix, encode, typeString⟩
          scenarioWriter (queryOf [anyQuestion]) (ttlConfig 16777216999999999)).1 =
        some { Id := 4242, Response := true, RecursionDesired := true,
               Question := [anyQuestion],
               Answer := [RR.A { Name := "gateway.internal.", Rrtype := 1, Class := 1,
                                 Ttl := 16777217 } relay4,
                          RR.AAAA { Name := "gateway.internal.", Rrtype := 28, Class := 1,
                                    Ttl := 16777217 } relay6] }) ∧
    ttlSeconds (ttlConfig 1600000000) = 1 ∧
    (ttlConfig 4294967296000000000).TTL / (Second : Int) = 4294967296 ∧
    (∀ (decodeHostname decodeSuffix : String → String) (encode : IP → String)
        (typeString : Nat → String),
      (createDNSReplyFromRequest
          ⟨allowAll, decodeHostname, decodeSuffix, encode, typeString⟩
          scenarioWriter (queryOf [anyQuestion]) (ttlConfig 4294967296000000000)).1 =
        some { Id := 4242, Response := true, RecursionDesired := true,
               Question := [anyQuestion],
               Answer := [RR.A { Name := "gateway.internal.", Rrtype := 1, Class := 1,
                                 Ttl := 0 } relay4,
                          RR.AAAA { Name := "gateway.internal.", Rrtype := 28, Class := 1,
                                    Ttl := 0 } relay6] }) :=
  ⟨by decide, fun _ _ _ _ => rfl, by decide, by decide, fun _ _ _ _ => rfl⟩

/-- C9, as stated, fails on the TTL: the record of the `A` reply carries
`uint32(config.TTL.Seconds())`, computed through `float64`. For a configured
TTL of 20000000.999999999 s the record carries 20000001, one more than its
whole seconds, and for a configured TTL of `2^32 + 1` s it carries 1. -/
theorem single_A_question_ttl_counterexample :
    (ttlConfig 20000000999999999).TTL / (Second : Int) = 20000000 ∧
    (∀ (decodeHostname decodeSuffix : String → String) (encode : IP → String)
        (typeString : Nat → String),
      (createDNSReplyFromRequest
          ⟨allowAll, decodeHostname, decodeSuffix, encode, typeString⟩
          scenarioWriter (queryOf [gatewayQuestion]) (ttlConfig 20000000999999999)).1 =
        some { Id := 4242, Response := true, RecursionDesired := true,
               Question := [gatewayQuestion],
               Answer := [RR.A { Name := "gateway.internal.", Rrtype := 1, Class := 1,
                                 Ttl := 20000001 } relay4] }) ∧
    (ttlConfig 4294967297000000000).TTL / (Second : Int) = 4294967297 ∧
    (∀ (decodeHostname decodeSuffix : String → String) (encode : IP → String)
        (typeString : Nat → String),
      (createDNSReplyFromRequest
          ⟨allowAll, decodeHostname, decodeSuffix, encode, typeString⟩
          scenarioWriter (queryOf [gatewayQuestion]) (ttlConfig 4294967297000000000)).1 =
        some { Id := 4242, Response := true, RecursionDesired := true,
               Question := [gatewayQuestion],
               Answer := [RR.A { Name := "gateway.internal.", Rrtype := 1, Class := 1,
                                 Ttl := 1 } relay4] }) :=
  ⟨by decide, fun _ _ _ _ => rfl, by decide, fun _ _ _ _ => rfl⟩

end Pretender
